import Mathlib

/-!
A shallow embedding of the `frame/treasury` pallet (laminar-protocol/substrate),
covering the spending-proposal ledger, the tip consensus engine, the bounty
state machine and the settlement scheduler (`spend_funds`), together with
theorems checking the natural-language specification against the code.

Modelling conventions:
* machine integers (`u32`, `u64`, `u128` balances, block numbers) are `Nat`;
  every subtraction in the source is guarded by a comparison, so `Nat`
  truncated subtraction agrees with the source on all guarded paths, and it
  matches the saturating subtractions (`saturating_sub`) exactly;
* the external currency ledger is, as the specification prescribes, an
  abstract balance store: association lists of free and reserved balances
  with mint / reserve / unreserve / slash / transfer operations;
* hashing is modelled injectively: the hash of a reason is the reason itself
  and the hash of `(reason_hash, who)` is the pair; collisions are assumed
  impossible, matching the cryptographic assumption in the source;
* each dispatchable returns the post-call state together with an optional
  error; the source detects every error before its first write (or inside a
  `try_mutate_exists` closure, which rolls the touched entry back on error),
  so an erroring call returns the input state unchanged;
* `close_tip` additionally distinguishes the diverging path in `payout_tip`
  where `tips[tips.len() / 2]` indexes an empty vector.
-/

/-- Account identities: ordinary user accounts, the treasury pot account
(`ModuleId::into_account`) and per-bounty sub-accounts
(`bounty_account_id`). The three classes are distinct by construction,
mirroring the collision-freeness assumption of account derivation. -/
inductive AccountId where
  | user (n : Nat)
  | treasury
  | bountyAcc (n : Nat)
deriving DecidableEq, Repr

namespace AccountId

/-- Injective encoding of accounts into `Nat`, fixing the total order used for
the sorted `tips` vector and the sorted tipper member list (the source orders
by `Ord` on the account id type). -/
def enc : AccountId → Nat
  | .treasury => 0
  | .user n => 2 * n + 1
  | .bountyAcc n => 2 * n + 2

theorem enc_injective : Function.Injective enc := by
  intro a b h
  cases a <;> cases b <;> simp only [enc] at h <;>
    first
      | rfl
      | (exact absurd h (by omega))
      | (congr 1; omega)

end AccountId

/-- Strict order on accounts (by the injective encoding). -/
def accLt (a b : AccountId) : Prop := a.enc < b.enc

instance : DecidableRel accLt := fun a b => inferInstanceAs (Decidable (a.enc < b.enc))

/-- Association-list lookup, keyed by decidable equality. -/
def assocGet {α β : Type} [DecidableEq α] (l : List (α × β)) (k : α) : Option β :=
  match l with
  | [] => none
  | (k', v) :: rest => if k' = k then some v else assocGet rest k

/-- Association-list insert-or-replace. -/
def assocSet {α β : Type} [DecidableEq α] (l : List (α × β)) (k : α) (v : β) :
    List (α × β) :=
  match l with
  | [] => [(k, v)]
  | (k', v') :: rest =>
    if k' = k then (k, v) :: rest else (k', v') :: assocSet rest k v

/-- Association-list removal: drops every entry stored under key `k`
(entries are unique per key for lists maintained through `assocSet`, so this
is the key-value-store `remove`). -/
def assocRemove {α β : Type} [DecidableEq α] (l : List (α × β)) (k : α) :
    List (α × β) :=
  l.filter (fun p => p.1 ≠ k)

theorem assocGet_set_eq {α β : Type} [DecidableEq α] (l : List (α × β)) (k : α) (v : β) :
    assocGet (assocSet l k v) k = some v := by
  induction l with
  | nil => simp [assocSet, assocGet]
  | cons hd tl ih =>
    obtain ⟨k', v'⟩ := hd
    by_cases h : k' = k <;> simp [assocSet, assocGet, h, ih]

theorem assocGet_set_ne {α β : Type} [DecidableEq α] (l : List (α × β)) (k k' : α)
    (v : β) (h : k ≠ k') : assocGet (assocSet l k v) k' = assocGet l k' := by
  induction l with
  | nil => simp [assocSet, assocGet, h]
  | cons hd tl ih =>
    obtain ⟨k₀, v₀⟩ := hd
    by_cases h₀ : k₀ = k
    · subst h₀
      simp [assocSet, assocGet, h]
    · simp only [assocSet, if_neg h₀]
      by_cases h₁ : k₀ = k' <;> simp [assocGet, h₁, ih]

theorem assocGet_remove_eq {α β : Type} [DecidableEq α] (l : List (α × β)) (k : α) :
    assocGet (assocRemove l k) k = none := by
  induction l with
  | nil => simp [assocRemove, assocGet]
  | cons hd tl ih =>
    obtain ⟨k', v'⟩ := hd
    by_cases h : k' = k
    · subst h
      simpa [assocRemove, List.filter] using ih
    · simpa [assocRemove, List.filter, h, assocGet] using ih

theorem assocGet_remove_ne {α β : Type} [DecidableEq α] (l : List (α × β)) (k k' : α)
    (h : k ≠ k') : assocGet (assocRemove l k) k' = assocGet l k' := by
  induction l with
  | nil => simp [assocRemove]
  | cons hd tl ih =>
    obtain ⟨k₀, v₀⟩ := hd
    by_cases h₀ : k₀ = k
    · have hd : assocRemove ((k₀, v₀) :: tl) k = assocRemove tl k := by
        simp [assocRemove, List.filter, h₀]
      have hg : assocGet ((k₀, v₀) :: tl) k' = assocGet tl k' := by
        have : k₀ ≠ k' := h₀ ▸ h
        simp [assocGet, this]
      rw [hd, ih, hg]
    · have hd : assocRemove ((k₀, v₀) :: tl) k = (k₀, v₀) :: assocRemove tl k := by
        simp [assocRemove, List.filter, h₀]
      rw [hd]
      by_cases h₁ : k₀ = k' <;> simp [assocGet, h₁, ih]

/-- Errors of the treasury module (`decl_error!` in the source), plus
`badOrigin` for a signed caller outside the `Tippers` set and
`currencyError` for a propagated failure of the external currency ledger. -/
inductive Err where
  | insufficientProposersBalance
  | invalidIndex
  | reasonTooBig
  | alreadyKnown
  | unknownTip
  | notFinder
  | stillOpen
  | premature
  | unexpectedStatus
  | requireCurator
  | invalidValue
  | invalidFee
  | exceedDepthLimit
  | badOrigin
  | currencyError
deriving DecidableEq, Repr

/-- A spending proposal (`struct Proposal`). -/
structure Proposal where
  proposer : AccountId
  value : Nat
  beneficiary : AccountId
  bond : Nat
deriving DecidableEq, Repr

/-- An open tipping motion (`struct OpenTip`). The reason hash is modelled as
the reason byte string itself (injective hashing). -/
structure OpenTip where
  reason : List Nat
  who : AccountId
  finder : AccountId
  deposit : Nat
  closes : Option Nat
  tips : List (AccountId × Nat)
  findersFee : Bool
deriving DecidableEq, Repr

/-- `enum BountyStatus`. -/
inductive BountyStatus where
  | proposed
  | approved
  | active (expires : Nat)
  | pendingPayout (beneficiary : AccountId) (unlockAt : Nat)
deriving DecidableEq, Repr

/-- `BountyStatus::is_active`. -/
def BountyStatus.isActive : BountyStatus → Bool
  | .active _ => true
  | _ => false

/-- A bounty (`struct Bounty`). -/
structure Bounty where
  proposer : AccountId
  curator : AccountId
  value : Nat
  fee : Nat
  bond : Nat
  status : BountyStatus
  parent : Option Nat
deriving DecidableEq, Repr

/-- The tip key: the hash of `(reason_hash, who)`, modelled injectively as
the pair itself. -/
abbrev TipHash := List Nat × AccountId

/-- The constants supplied through the `Trait` configuration. Fraction types
`Permill` (parts per million) and `Percent` (parts per hundred) are carried
as their numerator parts. -/
structure Config where
  existentialDeposit : Nat
  proposalBondPermill : Nat
  proposalBondMinimum : Nat
  spendPeriod : Nat
  burnPermill : Nat
  tipCountdown : Nat
  tipFindersFeePercent : Nat
  tipReportDepositBase : Nat
  dataDepositPerByte : Nat
  bountyDepositBase : Nat
  bountyPayoutDelay : Nat
  bountyDuration : Nat
  maximumReasonLength : Nat
  maximumSubBountyDepth : Nat
deriving DecidableEq, Repr

/-- `Permill * balance` in `sp_arithmetic`: `b / 1e6 * parts + b % 1e6 * parts / 1e6`,
which equals `b * parts / 1e6` rounded down. -/
def permillMul (parts b : Nat) : Nat := b * parts / 1000000

/-- `Percent * balance`: `b * parts / 100` rounded down. -/
def percentMul (parts b : Nat) : Nat := b * parts / 100

/-- The whole persisted state of the module, together with the collaborator
state it interacts with: the balance ledger (free and reserved balances), the
current membership of the `Tippers` group (kept sorted by account order, as
the `Contains::sorted_members` contract requires) and the block number. -/
structure State where
  proposalCount : Nat
  proposals : List (Nat × Proposal)
  approvals : List Nat
  tipsMap : List (TipHash × OpenTip)
  reasons : List (List Nat × List Nat)
  bountyCount : Nat
  bounties : List (Nat × Bounty)
  bountyDescriptions : List (Nat × List Nat)
  bountyApprovals : List Nat
  bountyValueMinimum : Nat
  free : List (AccountId × Nat)
  reserved : List (AccountId × Nat)
  tippers : List AccountId
  now : Nat
deriving DecidableEq, Repr

namespace State

/-- Free balance of an account in the ledger collaborator. -/
def freeOf (s : State) (a : AccountId) : Nat := (assocGet s.free a).getD 0

/-- Reserved balance of an account. -/
def reservedOf (s : State) (a : AccountId) : Nat := (assocGet s.reserved a).getD 0

def setFree (s : State) (a : AccountId) (v : Nat) : State :=
  { s with free := assocSet s.free a v }

def setReserved (s : State) (a : AccountId) (v : Nat) : State :=
  { s with reserved := assocSet s.reserved a v }

/-- `Currency::reserve`: move `v` from free to reserved, failing when the
free balance does not cover it (the ledger is the abstract collaborator;
its finer existence rules are out of scope per the specification). -/
def reserve (s : State) (a : AccountId) (v : Nat) : Option State :=
  if v ≤ s.freeOf a then
    some ((s.setFree a (s.freeOf a - v)).setReserved a (s.reservedOf a + v))
  else
    none

/-- `Currency::unreserve`: move `min v reserved` back to free; never fails. -/
def unreserve (s : State) (a : AccountId) (v : Nat) : State :=
  let m := min v (s.reservedOf a)
  (s.setReserved a (s.reservedOf a - m)).setFree a (s.freeOf a + m)

/-- `Currency::slash_reserved`: remove `min v reserved` from the reserved
balance; the slashed imbalance is routed to the configured sink (burned in
the test configuration). -/
def slashReserved (s : State) (a : AccountId) (v : Nat) : State :=
  s.setReserved a (s.reservedOf a - min v (s.reservedOf a))

/-- `Currency::deposit_creating`: mint `v` into an account. -/
def depositCreating (s : State) (a : AccountId) (v : Nat) : State :=
  s.setFree a (s.freeOf a + v)

/-- `Currency::transfer`. `keepAlive` keeps the source above the existential
deposit; with `AllowDeath` the source may be emptied. -/
def transfer (cfg : Config) (s : State) (src dst : AccountId) (v : Nat)
    (keepAlive : Bool) : Option State :=
  if v ≤ s.freeOf src ∧ (keepAlive → cfg.existentialDeposit ≤ s.freeOf src - v) then
    let s1 := s.setFree src (s.freeOf src - v)
    some (s1.setFree dst (s1.freeOf dst + v))
  else
    none

/-- A best-effort transfer (`let _ = T::Currency::transfer(...)`): a failure
is discarded and the state is left unchanged. -/
def transferBE (cfg : Config) (s : State) (src dst : AccountId) (v : Nat)
    (keepAlive : Bool) : State :=
  (transfer cfg s src dst v keepAlive).getD s

/-- `Module::pot()`: free balance of the treasury account minus the
existential deposit (saturating). -/
def pot (cfg : Config) (s : State) : Nat :=
  s.freeOf .treasury - cfg.existentialDeposit

end State

/-- `tips.binary_search_by_key(&&tipper, |x| &x.0)` followed by replace
(`Ok`) or positional insert (`Err`): on the sorted-by-account `tips` vector
this replaces the existing declaration of `tipper` or inserts a new one at
its ordered position. -/
def insertTipSorted (tips : List (AccountId × Nat)) (tipper : AccountId)
    (v : Nat) : List (AccountId × Nat) :=
  match tips with
  | [] => [(tipper, v)]
  | (a, w) :: rest =>
    if tipper.enc < a.enc then (tipper, v) :: (a, w) :: rest
    else if a = tipper then (tipper, v) :: rest
    else (a, w) :: insertTipSorted rest tipper v

/-- `retain_active_tips`: the sorted-merge retain loop of the source.  The
member iterator state is the first argument; per tip `(a, _)`: the loop
first advances the iterator past members below `a` (the `continue` arm,
here `dropWhile`); then a remaining member above `a` drops the tip without
consuming the member, an equal member keeps the tip and consumes the
member, and an exhausted iterator drops this and all remaining tips. -/
def retainLoop (ms : List AccountId) (tips : List (AccountId × Nat)) :
    List (AccountId × Nat) :=
  match tips with
  | [] => []
  | (a, w) :: rest =>
    match ms.dropWhile (fun m => decide (m.enc < a.enc)) with
    | [] => []
    | m :: ms' =>
      if m = a then (a, w) :: retainLoop ms' rest
      else retainLoop (m :: ms') rest

/-- `Self::retain_active_tips(&mut tips)` with the current sorted members. -/
def retainActiveTips (members : List AccountId) (tips : List (AccountId × Nat)) :
    List (AccountId × Nat) :=
  retainLoop members tips

/-- Stable insertion into a list sorted by declared amount (`sort_by_key(|i| i.1)`). -/
def insertByValue (p : AccountId × Nat) : List (AccountId × Nat) → List (AccountId × Nat)
  | [] => [p]
  | q :: rest => if p.2 < q.2 then p :: q :: rest else q :: insertByValue p rest

/-- `tips.sort_by_key(|i| i.1)`: stable sort by declared amount. -/
def sortByValue : List (AccountId × Nat) → List (AccountId × Nat)
  | [] => []
  | p :: rest => insertByValue p (sortByValue rest)

/-- The selected tip amount of `payout_tip`: element `len / 2` of the
value-sorted declarations, `none` when the vector is empty (the source
indexes unconditionally and diverges there). -/
def tipMedian (tips : List (AccountId × Nat)) : Option Nat :=
  let sorted := sortByValue tips
  (sorted.get? (sorted.length / 2)).map Prod.snd

/-- The closing threshold `(T::Tippers::count() + 1) / 2`. -/
def tipThreshold (members : List AccountId) : Nat := (members.length + 1) / 2

/-- `insert_tip_and_check_closing`: insert/replace the declaration of
`tipper`, prune inactive declarations, and when the pruned count reaches the
threshold while no closing block is set, schedule closing at
`now + TipCountdown`. Returns the updated record and whether the closing
transition fired (the `TipClosing` event). -/
def insertTipAndCheckClosing (cfg : Config) (members : List AccountId)
    (now : Nat) (t : OpenTip) (tipper : AccountId) (v : Nat) : OpenTip × Bool :=
  let tips1 := insertTipSorted t.tips tipper v
  let tips2 := retainActiveTips members tips1
  if tipThreshold members ≤ tips2.length ∧ t.closes = none then
    ({ t with tips := tips2, closes := some (now + cfg.tipCountdown) }, true)
  else
    ({ t with tips := tips2 }, false)

/-- Outcome of `close_tip`. -/
inductive CloseOut where
  | err (e : Err)
  | panicked
  | paid (amount : Nat)
deriving DecidableEq, Repr

/-- `payout_tip`: prune stale declarations, sort by amount, select index
`len / 2` (diverging on an empty vector — reported as `CloseOut.panicked`
with the pre-divergence state), clamp to the pot, unreserve the finder
deposit, pay the finders fee when applicable, and best-effort transfer the
remainder to the beneficiary. -/
def payoutTip (cfg : Config) (s : State) (t : OpenTip) : State × CloseOut :=
  let tips := retainActiveTips s.tippers t.tips
  let sorted := sortByValue tips
  match sorted.get? (sorted.length / 2) with
  | none => (s, .panicked)
  | some sel =>
    let maxPayout := s.pot cfg
    let payout0 := min sel.2 maxPayout
    let s1 := if t.deposit ≠ 0 then s.unreserve t.finder t.deposit else s
    let (payout1, s2) :=
      if t.findersFee ∧ t.finder ≠ t.who then
        let fee := percentMul cfg.tipFindersFeePercent payout0
        (payout0 - fee, s1.transferBE cfg .treasury t.finder fee true)
      else
        (payout0, s1)
    let s3 := s2.transferBE cfg .treasury t.who payout1 true
    (s3, .paid payout1)

/-- `calculate_bond`: `ProposalBondMinimum.max(ProposalBond * value)`. -/
def calculateBond (cfg : Config) (value : Nat) : Nat :=
  max cfg.proposalBondMinimum (permillMul cfg.proposalBondPermill value)

/-- `propose_spend`: reserve the bond and store a new proposal under the next
index. -/
def proposeSpend (cfg : Config) (s : State) (proposer : AccountId) (value : Nat)
    (beneficiary : AccountId) : State × Option Err :=
  let bond := calculateBond cfg value
  match s.reserve proposer bond with
  | none => (s, some .insufficientProposersBalance)
  | some s1 =>
    let c := s1.proposalCount
    ({ s1 with
        proposalCount := c + 1,
        proposals := assocSet s1.proposals c ⟨proposer, value, beneficiary, bond⟩ },
      none)

/-- `reject_proposal` (reject authority): remove the proposal and slash its
bond. -/
def rejectProposal (s : State) (id : Nat) : State × Option Err :=
  match assocGet s.proposals id with
  | none => (s, some .invalidIndex)
  | some p =>
    let s1 := { s with proposals := assocRemove s.proposals id }
    (s1.slashReserved p.proposer p.bond, none)

/-- `approve_proposal` (approve authority): push the index onto the approval
queue. -/
def approveProposal (s : State) (id : Nat) : State × Option Err :=
  if (assocGet s.proposals id).isSome then
    ({ s with approvals := s.approvals ++ [id] }, none)
  else
    (s, some .invalidIndex)

/-- `report_awesome`: bounded reason, fresh reason and tip digests, reserve
the report deposit, store the reason and an empty finders-fee tip. -/
def reportAwesome (cfg : Config) (s : State) (finder : AccountId)
    (reason : List Nat) (who : AccountId) : State × Option Err :=
  if cfg.maximumReasonLength < reason.length then (s, some .reasonTooBig)
  else if (assocGet s.reasons reason).isSome then (s, some .alreadyKnown)
  else if (assocGet s.tipsMap (reason, who)).isSome then (s, some .alreadyKnown)
  else
    let deposit := cfg.tipReportDepositBase + cfg.dataDepositPerByte * reason.length
    match s.reserve finder deposit with
    | none => (s, some .currencyError)
    | some s1 =>
      let s2 := { s1 with reasons := assocSet s1.reasons reason reason }
      let tip : OpenTip := ⟨reason, who, finder, deposit, none, [], true⟩
      ({ s2 with tipsMap := assocSet s2.tipsMap (reason, who) tip }, none)

/-- `retract_tip`: finder only; remove tip and reason and unreserve any
deposit. -/
def retractTip (s : State) (who : AccountId) (h : TipHash) : State × Option Err :=
  match assocGet s.tipsMap h with
  | none => (s, some .unknownTip)
  | some t =>
    if t.finder ≠ who then (s, some .notFinder)
    else
      let s1 := { s with reasons := assocRemove s.reasons t.reason }
      let s2 := { s1 with tipsMap := assocRemove s1.tipsMap h }
      let s3 := if t.deposit ≠ 0 then s2.unreserve who t.deposit else s2
      (s3, none)

/-- `tip_new`: authorized tipper only; fresh reason; store the reason and a
tip seeded with the callers declaration, no deposit, no finders fee. -/
def tipNew (s : State) (tipper : AccountId) (reason : List Nat)
    (who : AccountId) (v : Nat) : State × Option Err :=
  if tipper ∉ s.tippers then (s, some .badOrigin)
  else if (assocGet s.reasons reason).isSome then (s, some .alreadyKnown)
  else
    let s1 := { s with reasons := assocSet s.reasons reason reason }
    let tip : OpenTip := ⟨reason, who, tipper, 0, none, [(tipper, v)], false⟩
    ({ s1 with tipsMap := assocSet s1.tipsMap (reason, who) tip }, none)

/-- `tip`: authorized tipper only; insert/update the declaration through
`insert_tip_and_check_closing` and write the record back. -/
def tipCall (cfg : Config) (s : State) (tipper : AccountId) (h : TipHash)
    (v : Nat) : State × Option Err :=
  if tipper ∉ s.tippers then (s, some .badOrigin)
  else
    match assocGet s.tipsMap h with
    | none => (s, some .unknownTip)
    | some t =>
      let (t', _closing) := insertTipAndCheckClosing cfg s.tippers s.now t tipper v
      ({ s with tipsMap := assocSet s.tipsMap h t' }, none)

/-- `close_tip`: requires a closing block that has been reached; removes the
reason and the tip record and runs `payout_tip`. -/
def closeTip (cfg : Config) (s : State) (h : TipHash) : State × CloseOut :=
  match assocGet s.tipsMap h with
  | none => (s, .err .unknownTip)
  | some t =>
    match t.closes with
    | none => (s, .err .stillOpen)
    | some n =>
      if s.now < n then (s, .err .premature)
      else
        let s1 := { s with reasons := assocRemove s.reasons t.reason }
        let s2 := { s1 with tipsMap := assocRemove s1.tipsMap h }
        payoutTip cfg s2 t

/-- `check_bounty_depth`: recursion on the permitted depth; `false` exactly
when a parent link is still present once the budget hits zero. A missing
bounty contributes no parent link (`Self::bounties(id).and_then(|b| b.parent)`). -/
def checkBountyDepth (s : State) : Option Nat → Nat → Bool
  | none, _ => true
  | some _, 0 => false
  | some id, d + 1 =>
    checkBountyDepth s ((assocGet s.bounties id).bind Bounty.parent) d

/-- `create_bounty`, the shared creation routine of `propose_bounty`
(`parentId = none`) and `create_sub_bounty` (`parentId = some pid`).  The
sub-bounty branch runs inside `Bounties::try_mutate_exists`, whose entry is
rolled back when the closure errors; the only fallible step after the
validations is the parent-to-child transfer, which mutates nothing when it
fails, so every error branch returns the entry state. -/
def createBounty (cfg : Config) (s : State) (proposer curator : AccountId)
    (description : List Nat) (fee value : Nat) (parentId : Option Nat) :
    State × Option Err :=
  if cfg.maximumReasonLength < description.length then (s, some .reasonTooBig)
  else if value < s.bountyValueMinimum then (s, some .invalidValue)
  else if ¬fee < value then (s, some .invalidFee)
  else
    let index := s.bountyCount
    match parentId with
    | some pid =>
      match assocGet s.bounties pid with
      | none => (s, some .invalidIndex)
      | some parent =>
        if ¬parent.status.isActive then (s, some .unexpectedStatus)
        else if proposer ≠ parent.curator then (s, some .requireCurator)
        else if ¬fee < parent.fee then (s, some .invalidFee)
        else if ¬value < parent.value then (s, some .invalidValue)
        else if ¬checkBountyDepth s (some pid) cfg.maximumSubBountyDepth then
          (s, some .exceedDepthLimit)
        else
          match s.transfer cfg (.bountyAcc pid) (.bountyAcc index) value true with
          | none => (s, some .currencyError)
          | some s1 =>
            let parent' := { parent with fee := parent.fee - fee, value := parent.value - value }
            let s2 := { s1 with bounties := assocSet s1.bounties pid parent' }
            let expires := s.now + cfg.bountyDuration
            let bounty : Bounty :=
              ⟨proposer, curator, value, fee, 0, .active expires, some pid⟩
            let s3 :=
              { s2 with
                  bountyCount := index + 1,
                  bounties := assocSet s2.bounties index bounty,
                  bountyDescriptions := assocSet s2.bountyDescriptions index description }
            (s3, none)
    | none =>
      let bond := cfg.bountyDepositBase + cfg.dataDepositPerByte * description.length
      match s.reserve proposer bond with
      | none => (s, some .insufficientProposersBalance)
      | some s1 =>
        let bounty : Bounty := ⟨proposer, curator, value, fee, bond, .proposed, none⟩
        let s2 :=
          { s1 with
              bountyCount := index + 1,
              bounties := assocSet s1.bounties index bounty,
              bountyDescriptions := assocSet s1.bountyDescriptions index description }
        (s2, none)

/-- `reject_bounty` (reject authority): requires status `Proposed`; removes
the description and the bounty and slashes the bond. -/
def rejectBounty (s : State) (id : Nat) : State × Option Err :=
  match assocGet s.bounties id with
  | none => (s, some .invalidIndex)
  | some b =>
    if b.status ≠ .proposed then (s, some .unexpectedStatus)
    else
      let s1 := { s with bountyDescriptions := assocRemove s.bountyDescriptions id }
      let s2 := s1.slashReserved b.proposer b.bond
      ({ s2 with bounties := assocRemove s2.bounties id }, none)

/-- `approve_bounty` (approve authority): requires status `Proposed`; moves
to `Approved` and enqueues for settlement. -/
def approveBounty (s : State) (id : Nat) : State × Option Err :=
  match assocGet s.bounties id with
  | none => (s, some .invalidIndex)
  | some b =>
    if b.status ≠ .proposed then (s, some .unexpectedStatus)
    else
      ({ s with
          bounties := assocSet s.bounties id { b with status := .approved },
          bountyApprovals := s.bountyApprovals ++ [id] }, none)

/-- `award_bounty`: curator only, requires `Active`; moves to
`PendingPayout` with unlock at `now + BountyDepositPayoutDelay`. -/
def awardBounty (cfg : Config) (s : State) (caller : AccountId) (id : Nat)
    (beneficiary : AccountId) : State × Option Err :=
  match assocGet s.bounties id with
  | none => (s, some .invalidIndex)
  | some b =>
    if ¬b.status.isActive then (s, some .unexpectedStatus)
    else if b.curator ≠ caller then (s, some .requireCurator)
    else
      let b' := { b with
        status := .pendingPayout beneficiary (s.now + cfg.bountyPayoutDelay) }
      ({ s with bounties := assocSet s.bounties id b' }, none)

/-- `claim_bounty`: anyone; requires `PendingPayout` past its unlock block;
pays the fee to the curator, the rest of the sub-account to the beneficiary
(best effort) and removes the bounty and its description. -/
def claimBounty (cfg : Config) (s : State) (id : Nat) : State × Option Err :=
  match assocGet s.bounties id with
  | none => (s, some .invalidIndex)
  | some b =>
    match b.status with
    | .pendingPayout beneficiary unlockAt =>
      if s.now < unlockAt then (s, some .premature)
      else
        let acc : AccountId := .bountyAcc id
        let balance := s.freeOf acc
        let payout := balance - b.fee
        let s1 := s.transferBE cfg acc b.curator b.fee false
        let s2 := s1.transferBE cfg acc beneficiary payout false
        let s3 := { s2 with bounties := assocRemove s2.bounties id }
        ({ s3 with bountyDescriptions := assocRemove s3.bountyDescriptions id }, none)
    | _ => (s, some .unexpectedStatus)

/-- `cancel_bounty`: requires `Active`; the curator before expiry, anyone
after; refunds the sub-account to the pot and removes the bounty. -/
def cancelBounty (cfg : Config) (s : State) (caller : AccountId) (id : Nat) :
    State × Option Err :=
  match assocGet s.bounties id with
  | none => (s, some .invalidIndex)
  | some b =>
    match b.status with
    | .active expires =>
      if s.now < expires ∧ b.curator ≠ caller then (s, some .requireCurator)
      else
        let s1 := { s with bountyDescriptions := assocRemove s.bountyDescriptions id }
        let acc : AccountId := .bountyAcc id
        let s2 := s1.transferBE cfg acc .treasury (s1.freeOf acc) false
        ({ s2 with bounties := assocRemove s2.bounties id }, none)
    | _ => (s, some .unexpectedStatus)

/-- `extend_bounty_expiry`: curator only, requires `Active`; expiry becomes
`max(expires, now + BountyDuration)`. -/
def extendBountyExpiry (cfg : Config) (s : State) (caller : AccountId)
    (id : Nat) : State × Option Err :=
  match assocGet s.bounties id with
  | none => (s, some .invalidIndex)
  | some b =>
    if ¬b.status.isActive then (s, some .unexpectedStatus)
    else if b.curator ≠ caller then (s, some .requireCurator)
    else
      match b.status with
      | .active expires =>
        let b' := { b with status := .active (max expires (s.now + cfg.bountyDuration)) }
        ({ s with bounties := assocSet s.bounties id b' }, none)
      | _ => (s, some .unexpectedStatus)

/-- `update_bounty_value_minimum` (approve authority). -/
def updateBountyValueMinimum (s : State) (v : Nat) : State × Option Err :=
  ({ s with bountyValueMinimum := v }, none)

/-- Result of draining one approval queue inside `spend_funds`. -/
structure DrainRes where
  kept : List Nat
  st : State
  budget : Nat
  missed : Bool
  paid : List Nat
  skipped : List Nat
  minted : Nat
deriving Repr

/-- The proposal half of `spend_funds`: walk the approval queue in order;
a queued index with no stored proposal is dropped; an affordable proposal is
paid (proposal removed, bond unreserved, value minted to the beneficiary,
budget reduced) and its entry dropped; an unaffordable one stays queued and
marks the cycle as missed. `minted` accumulates the imbalance settled
against the treasury account afterwards. -/
def drainProposals (queue : List Nat) (s : State) (budget : Nat) (missed : Bool) :
    DrainRes :=
  match queue with
  | [] => ⟨[], s, budget, missed, [], [], 0⟩
  | i :: rest =>
    match assocGet s.proposals i with
    | none => drainProposals rest s budget missed
    | some p =>
      if p.value ≤ budget then
        let s1 := { s with proposals := assocRemove s.proposals i }
        let s2 := s1.unreserve p.proposer p.bond
        let s3 := s2.depositCreating p.beneficiary p.value
        let r := drainProposals rest s3 (budget - p.value) missed
        { r with paid := i :: r.paid, minted := p.value + r.minted }
      else
        let r := drainProposals rest s budget true
        { r with kept := i :: r.kept, skipped := i :: r.skipped }

/-- The bounty half of `spend_funds`: affordable approved bounties become
`Active { expires = now + duration }`, their proposer bond is unreserved and
their value minted into the bounty sub-account; unaffordable ones stay
queued and mark the cycle as missed; entries without a stored bounty are
dropped. -/
def drainBounties (cfg : Config) (queue : List Nat) (s : State) (budget : Nat)
    (missed : Bool) : DrainRes :=
  match queue with
  | [] => ⟨[], s, budget, missed, [], [], 0⟩
  | i :: rest =>
    match assocGet s.bounties i with
    | none => drainBounties cfg rest s budget missed
    | some b =>
      if b.value ≤ budget then
        let expires := s.now + cfg.bountyDuration
        let b' := { b with status := .active expires }
        let s1 := { s with bounties := assocSet s.bounties i b' }
        let s2 := s1.unreserve b.proposer b.bond
        let s3 := s2.depositCreating (.bountyAcc i) b.value
        let r := drainBounties cfg rest s3 (budget - b.value) missed
        { r with paid := i :: r.paid, minted := b.value + r.minted }
      else
        let r := drainBounties cfg rest s budget true
        { r with kept := i :: r.kept, skipped := i :: r.skipped }

/-- The report of one `spend_funds` run: indices of paid proposals and newly
funded bounties, indices skipped for insufficient budget, the burn when one
happened, the budget left after the drain and the final rollover. -/
structure SpendReport where
  paidProposals : List Nat
  fundedBounties : List Nat
  skippedProposals : List Nat
  skippedBounties : List Nat
  missedAny : Bool
  budgetAfterDrain : Nat
  burn : Option Nat
  rollover : Nat
deriving Repr

/-- `Currency::settle(account, imbalance, ..., KeepAlive)`: withdraw the
accumulated spend from the treasury account; when that would fail the
imbalance is dropped and the account left untouched (the source logs and
continues). -/
def settleTreasury (cfg : Config) (s : State) (total : Nat) : State :=
  if total + cfg.existentialDeposit ≤ s.freeOf .treasury then
    s.setFree .treasury (s.freeOf .treasury - total)
  else
    s

/-- `spend_funds`: read the pot, drain the proposal queue then the bounty
queue against it, burn `Burn * remaining` (clamped to the remaining budget)
only when nothing was skipped for insufficiency, and settle the accumulated
imbalance against the treasury account. -/
def spendFunds (cfg : Config) (s : State) : State × SpendReport :=
  let budget0 := s.pot cfg
  let rp := drainProposals s.approvals s budget0 false
  let s1 := { rp.st with approvals := rp.kept }
  let rb := drainBounties cfg s1.bountyApprovals s1 rp.budget rp.missed
  let s2 := { rb.st with bountyApprovals := rb.kept }
  let burnt :=
    if rb.missed then none
    else some (min (permillMul cfg.burnPermill rb.budget) rb.budget)
  let rollover := rb.budget - burnt.getD 0
  let total := rp.minted + rb.minted + burnt.getD 0
  let s3 := settleTreasury cfg s2 total
  (s3,
    { paidProposals := rp.paid,
      fundedBounties := rb.paid,
      skippedProposals := rp.skipped,
      skippedBounties := rb.skipped,
      missedAny := rb.missed,
      budgetAfterDrain := rb.budget,
      burn := burnt,
      rollover := rollover })

/-- `on_initialize`: settlement only runs when the block number is a
multiple of `SpendPeriod`. -/
def onInitialize (cfg : Config) (s : State) : State :=
  if s.now % cfg.spendPeriod = 0 then (spendFunds cfg s).1 else s

/-- The genesis state: empty storage; the treasury account is endowed with
exactly the existential deposit (`add_extra_genesis`). -/
def genesis (cfg : Config) : State :=
  { proposalCount := 0
    proposals := []
    approvals := []
    tipsMap := []
    reasons := []
    bountyCount := 0
    bounties := []
    bountyDescriptions := []
    bountyApprovals := []
    bountyValueMinimum := 0
    free := [(.treasury, cfg.existentialDeposit)]
    reserved := []
    tippers := []
    now := 0 }

/-- Sortedness of the tipper member list, the `Contains::sorted_members`
contract. -/
def sortedMembers (ms : List AccountId) : Prop :=
  ms.Chain' (fun a b => a.enc < b.enc)

instance (ms : List AccountId) : Decidable (sortedMembers ms) :=
  inferInstanceAs (Decidable (ms.Chain' (fun a b => AccountId.enc a < AccountId.enc b)))

/-- One step of the system: any successful dispatchable, the periodic
settlement hook, or an environment action (block progression, a change of
the tipper membership group, external funding of an account). Erroring calls
leave the state unchanged, so they need no transition. -/
inductive Step (cfg : Config) : State → State → Prop
  | proposeSpend (s : State) (proposer : AccountId) (value : Nat)
      (beneficiary : AccountId) (s' : State)
      (h : proposeSpend cfg s proposer value beneficiary = (s', none)) :
      Step cfg s s'
  | rejectProposal (s : State) (id : Nat) (s' : State)
      (h : rejectProposal s id = (s', none)) : Step cfg s s'
  | approveProposal (s : State) (id : Nat) (s' : State)
      (h : approveProposal s id = (s', none)) : Step cfg s s'
  | reportAwesome (s : State) (finder : AccountId) (reason : List Nat)
      (who : AccountId) (s' : State)
      (h : reportAwesome cfg s finder reason who = (s', none)) : Step cfg s s'
  | retractTip (s : State) (who : AccountId) (hsh : TipHash) (s' : State)
      (h : retractTip s who hsh = (s', none)) : Step cfg s s'
  | tipNew (s : State) (tipper : AccountId) (reason : List Nat)
      (who : AccountId) (v : Nat) (s' : State)
      (h : tipNew s tipper reason who v = (s', none)) : Step cfg s s'
  | tipCall (s : State) (tipper : AccountId) (hsh : TipHash) (v : Nat) (s' : State)
      (h : tipCall cfg s tipper hsh v = (s', none)) : Step cfg s s'
  | closeTip (s : State) (hsh : TipHash) (s' : State) (amount : Nat)
      (h : closeTip cfg s hsh = (s', .paid amount)) : Step cfg s s'
  | createBounty (s : State) (proposer curator : AccountId)
      (description : List Nat) (fee value : Nat) (parentId : Option Nat) (s' : State)
      (h : createBounty cfg s proposer curator description fee value parentId
        = (s', none)) : Step cfg s s'
  | rejectBounty (s : State) (id : Nat) (s' : State)
      (h : rejectBounty s id = (s', none)) : Step cfg s s'
  | approveBounty (s : State) (id : Nat) (s' : State)
      (h : approveBounty s id = (s', none)) : Step cfg s s'
  | awardBounty (s : State) (caller : AccountId) (id : Nat)
      (beneficiary : AccountId) (s' : State)
      (h : awardBounty cfg s caller id beneficiary = (s', none)) : Step cfg s s'
  | claimBounty (s : State) (id : Nat) (s' : State)
      (h : claimBounty cfg s id = (s', none)) : Step cfg s s'
  | cancelBounty (s : State) (caller : AccountId) (id : Nat) (s' : State)
      (h : cancelBounty cfg s caller id = (s', none)) : Step cfg s s'
  | extendBountyExpiry (s : State) (caller : AccountId) (id : Nat) (s' : State)
      (h : extendBountyExpiry cfg s caller id = (s', none)) : Step cfg s s'
  | updateBountyValueMinimum (s : State) (v : Nat) (s' : State)
      (h : updateBountyValueMinimum s v = (s', none)) : Step cfg s s'
  | spendFunds (s : State) (s' : State)
      (h : (spendFunds cfg s).1 = s') : Step cfg s s'
  | setNow (s : State) (n : Nat) (h : s.now ≤ n) :
      Step cfg s { s with now := n }
  | setTippers (s : State) (ms : List AccountId) (h : sortedMembers ms) :
      Step cfg s { s with tippers := ms }
  | fund (s : State) (a : AccountId) (v : Nat) :
      Step cfg s (s.depositCreating a v)

/-- Reachability from genesis under `Step`. -/
def Reachable (cfg : Config) (s : State) : Prop :=
  Relation.ReflTransGen (Step cfg) (genesis cfg) s

/-- The configuration of the test runtime in `tests.rs` (5% proposal bond,
minimum 1, spend period 2, 50% burn, tip countdown 1, 20% finders fee,
deposit base 1 + 1 per byte, bounty deposit base 80, payout delay 3,
duration 20, maximum sub-bounty depth 2). -/
def cfg0 : Config :=
  { existentialDeposit := 1
    proposalBondPermill := 50000
    proposalBondMinimum := 1
    spendPeriod := 2
    burnPermill := 500000
    tipCountdown := 1
    tipFindersFeePercent := 20
    tipReportDepositBase := 1
    dataDepositPerByte := 1
    bountyDepositBase := 80
    bountyPayoutDelay := 3
    bountyDuration := 20
    maximumReasonLength := 16384
    maximumSubBountyDepth := 2 }

namespace State

@[simp] theorem setFree_tipsMap (s : State) (a : AccountId) (v : Nat) :
    (s.setFree a v).tipsMap = s.tipsMap := rfl

@[simp] theorem setReserved_tipsMap (s : State) (a : AccountId) (v : Nat) :
    (s.setReserved a v).tipsMap = s.tipsMap := rfl

@[simp] theorem unreserve_tipsMap (s : State) (a : AccountId) (v : Nat) :
    (s.unreserve a v).tipsMap = s.tipsMap := rfl

@[simp] theorem slashReserved_tipsMap (s : State) (a : AccountId) (v : Nat) :
    (s.slashReserved a v).tipsMap = s.tipsMap := rfl

@[simp] theorem depositCreating_tipsMap (s : State) (a : AccountId) (v : Nat) :
    (s.depositCreating a v).tipsMap = s.tipsMap := rfl

@[simp] theorem transferBE_tipsMap (cfg : Config) (s : State) (src dst : AccountId)
    (v : Nat) (k : Bool) : (s.transferBE cfg src dst v k).tipsMap = s.tipsMap := by
  unfold transferBE transfer
  split <;> rfl

theorem reserve_tipsMap (s : State) (a : AccountId) (v : Nat) (s' : State)
    (h : s.reserve a v = some s') : s'.tipsMap = s.tipsMap := by
  unfold reserve at h
  split at h
  · cases h; rfl
  · cases h

theorem transfer_tipsMap (cfg : Config) (s : State) (src dst : AccountId)
    (v : Nat) (k : Bool) (s' : State) (h : s.transfer cfg src dst v k = some s') :
    s'.tipsMap = s.tipsMap := by
  unfold transfer at h
  split at h
  · cases h; rfl
  · cases h

@[simp] theorem unreserve_proposals (s : State) (a : AccountId) (v : Nat) :
    (s.unreserve a v).proposals = s.proposals := rfl

@[simp] theorem depositCreating_proposals (s : State) (a : AccountId) (v : Nat) :
    (s.depositCreating a v).proposals = s.proposals := rfl

@[simp] theorem unreserve_bounties (s : State) (a : AccountId) (v : Nat) :
    (s.unreserve a v).bounties = s.bounties := rfl

@[simp] theorem depositCreating_bounties (s : State) (a : AccountId) (v : Nat) :
    (s.depositCreating a v).bounties = s.bounties := rfl

@[simp] theorem unreserve_bountyApprovals (s : State) (a : AccountId) (v : Nat) :
    (s.unreserve a v).bountyApprovals = s.bountyApprovals := rfl

@[simp] theorem depositCreating_bountyApprovals (s : State) (a : AccountId) (v : Nat) :
    (s.depositCreating a v).bountyApprovals = s.bountyApprovals := rfl

@[simp] theorem unreserve_approvals (s : State) (a : AccountId) (v : Nat) :
    (s.unreserve a v).approvals = s.approvals := rfl

@[simp] theorem depositCreating_approvals (s : State) (a : AccountId) (v : Nat) :
    (s.depositCreating a v).approvals = s.approvals := rfl

@[simp] theorem settleTreasury_proposals (cfg : Config) (s : State) (t : Nat) :
    (settleTreasury cfg s t).proposals = s.proposals := by
  unfold settleTreasury
  split <;> rfl

@[simp] theorem settleTreasury_bounties (cfg : Config) (s : State) (t : Nat) :
    (settleTreasury cfg s t).bounties = s.bounties := by
  unfold settleTreasury
  split <;> rfl

@[simp] theorem settleTreasury_approvals (cfg : Config) (s : State) (t : Nat) :
    (settleTreasury cfg s t).approvals = s.approvals := by
  unfold settleTreasury
  split <;> rfl

@[simp] theorem settleTreasury_bountyApprovals (cfg : Config) (s : State) (t : Nat) :
    (settleTreasury cfg s t).bountyApprovals = s.bountyApprovals := by
  unfold settleTreasury
  split <;> rfl

@[simp] theorem settleTreasury_tipsMap (cfg : Config) (s : State) (t : Nat) :
    (settleTreasury cfg s t).tipsMap = s.tipsMap := by
  unfold settleTreasury
  split <;> rfl

end State

theorem State.transfer_bounties (cfg : Config) (s : State) (src dst : AccountId)
    (v : Nat) (k : Bool) (s' : State) (h : s.transfer cfg src dst v k = some s') :
    s'.bounties = s.bounties := by
  unfold State.transfer at h
  split at h
  · cases h; rfl
  · cases h

/-- Concrete fixture: a state holding one active top-level bounty
(curator `user 1`, value 30, fee 6, expires at block 22) whose sub-account
holds its 30 earmarked units; the bounty value floor is 5 and the clock is
at block 3. -/
def bounty0 : Bounty := ⟨.user 0, .user 1, 30, 6, 85, .active 22, none⟩

def sActive : State :=
  { genesis cfg0 with
      bountyCount := 1
      bounties := [(0, bounty0)]
      bountyDescriptions := [(0, [1, 2, 3, 4, 5])]
      bountyValueMinimum := 5
      free := [(.treasury, 101), (.bountyAcc 0, 30), (.user 0, 15), (.user 1, 98)]
      now := 3 }

/-- C10: `extend_bounty_expiry` requires status `Active` (failing
`UnexpectedStatus` otherwise) and the curator as caller (failing
`RequireCurator`); on success it replaces the expiry with
`max(expires, now + BountyDuration)`, which never decreases it. -/
theorem c10_extend_expiry_monotonic (cfg : Config) (s : State) (caller : AccountId)
    (id : Nat) :
    (∀ b, assocGet s.bounties id = some b → b.status.isActive = false →
      extendBountyExpiry cfg s caller id = (s, some .unexpectedStatus))
    ∧ (∀ b, assocGet s.bounties id = some b → b.status.isActive = true →
        b.curator ≠ caller →
      extendBountyExpiry cfg s caller id = (s, some .requireCurator))
    ∧ (∀ b e, assocGet s.bounties id = some b → b.status = .active e →
        b.curator = caller →
      extendBountyExpiry cfg s caller id =
        ({ s with bounties := assocSet s.bounties id ({ b with status := .active (max e (s.now + cfg.bountyDuration)) }) }, none)
      ∧ e ≤ max e (s.now + cfg.bountyDuration)) := by
  refine ⟨?_, ?_, ?_⟩
  · intro b hb hact
    unfold extendBountyExpiry
    rw [hb]
    simp [hact]
  · intro b hb hact hcur
    unfold extendBountyExpiry
    rw [hb]
    simp only [hact]
    cases hst : b.status with
    | active e => simp [hcur]
    | proposed => rw [hst] at hact; simp [BountyStatus.isActive] at hact
    | approved => rw [hst] at hact; simp [BountyStatus.isActive] at hact
    | pendingPayout x y => rw [hst] at hact; simp [BountyStatus.isActive] at hact
  · intro b e hb hst hcur
    unfold extendBountyExpiry
    rw [hb]
    have hact : b.status.isActive = true := by rw [hst]; rfl
    refine ⟨?_, Nat.le_max_left _ _⟩
    simp [hact, hcur, hst, BountyStatus.isActive]

/-- Witness for C10 at the concrete fixture: extending the active bounty of
`sActive` (expiry 22, now 3, duration 20) keeps the expiry at
`max 22 23 = 23 ≥ 22`. -/
theorem c10_extend_expiry_monotonic_witness :
    extendBountyExpiry cfg0 sActive (.user 1) 0 =
      ({ sActive with bounties := assocSet sActive.bounties 0 ({ bounty0 with status := .active (max 22 (sActive.now + cfg0.bountyDuration)) }) }, none)
    ∧ 22 ≤ max 22 (sActive.now + cfg0.bountyDuration) :=
  (c10_extend_expiry_monotonic cfg0 sActive (.user 1) 0).2.2 bounty0 22 rfl rfl rfl


/-- C2: a successful `create_sub_bounty` is possible only with the child fee
strictly below the parent's current fee and the child value strictly below
the parent's current value, and it decrements the parent's fee and value by
exactly the child's (under the fresh-index discipline of the source the new
child index never collides with the parent's); with a strict inequality
violated (all earlier checks passing) the call fails with `InvalidFee`
respectively `InvalidValue` and leaves the state unchanged. -/
theorem c2_sub_bounty_fee_value (cfg : Config) (s : State)
    (proposer curator : AccountId) (description : List Nat) (fee value : Nat)
    (pid : Nat) :
    (∀ s', createBounty cfg s proposer curator description fee value (some pid) = (s', none) →
      ∃ parent, assocGet s.bounties pid = some parent ∧ fee < parent.fee ∧
        value < parent.value ∧
        (pid ≠ s.bountyCount →
          assocGet s'.bounties pid = some ({ parent with fee := parent.fee - fee, value := parent.value - value })))
    ∧ (∀ parent, assocGet s.bounties pid = some parent →
        description.length ≤ cfg.maximumReasonLength → s.bountyValueMinimum ≤ value →
        fee < value → parent.status.isActive = true → proposer = parent.curator →
        parent.fee ≤ fee →
        createBounty cfg s proposer curator description fee value (some pid)
          = (s, some .invalidFee))
    ∧ (∀ parent, assocGet s.bounties pid = some parent →
        description.length ≤ cfg.maximumReasonLength → s.bountyValueMinimum ≤ value →
        fee < value → parent.status.isActive = true → proposer = parent.curator →
        fee < parent.fee → parent.value ≤ value →
        createBounty cfg s proposer curator description fee value (some pid)
          = (s, some .invalidValue)) := by
  refine ⟨?_, ?_, ?_⟩
  · intro s' h
    unfold createBounty at h
    split at h
    · simp at h
    split at h
    · simp at h
    split at h
    · simp at h
    dsimp only at h
    cases hpar : assocGet s.bounties pid with
    | none => rw [hpar] at h; simp at h
    | some parent =>
      rw [hpar] at h
      dsimp only at h
      split at h
      · simp at h
      split at h
      · simp at h
      split at h
      · simp at h
      split at h
      · simp at h
      split at h
      · simp at h
      cases htr : State.transfer cfg s (.bountyAcc pid) (.bountyAcc s.bountyCount) value true with
      | none => rw [htr] at h; simp at h
      | some s1 =>
        rw [htr] at h
        dsimp only at h
        refine ⟨parent, rfl, by omega, by omega, ?_⟩
        intro hne
        have hs' := (Prod.mk.injEq _ _ _ _ ▸ h).1
        subst hs'
        have h1 : s1.bounties = s.bounties := State.transfer_bounties _ _ _ _ _ _ _ htr
        show assocGet (assocSet (assocSet s1.bounties pid _) s.bountyCount _) pid = _
        rw [assocGet_set_ne _ s.bountyCount pid _ (fun hh => hne hh.symm),
          assocGet_set_eq]
  · intro parent hpar hlen hmin hfv hact hcur hfee
    unfold createBounty
    rw [if_neg (by omega), if_neg (by omega), if_neg (by simp [hfv])]
    dsimp only
    rw [hpar]
    dsimp only
    rw [if_neg (by simp [hact]), if_neg (by simp [hcur]), if_pos (by omega)]
  · intro parent hpar hlen hmin hfv hact hcur hfee hval
    unfold createBounty
    rw [if_neg (by omega), if_neg (by omega), if_neg (by simp [hfv])]
    dsimp only
    rw [hpar]
    dsimp only
    rw [if_neg (by simp [hact]), if_neg (by simp [hcur]), if_neg (by simp [hfee]),
      if_pos (by omega)]

/-- Witness for C2: at `sActive`, `create_sub_bounty(parent 0, curator user 5,
fee 4, value 20)` succeeds, so fee and value were strictly below the
parent's 6 and 30 and the parent is decremented to fee 2, value 10. -/
theorem c2_sub_bounty_fee_value_witness :
    ∃ parent, assocGet sActive.bounties 0 = some parent ∧ 4 < parent.fee ∧
      20 < parent.value ∧
      (0 ≠ sActive.bountyCount →
        assocGet ((createBounty cfg0 sActive (.user 1) (.user 5) [1, 2, 3] 4 20 (some 0)).1).bounties 0
          = some ({ parent with fee := parent.fee - 4, value := parent.value - 20 })) :=
  (c2_sub_bounty_fee_value cfg0 sActive (.user 1) (.user 5) [1, 2, 3] 4 20 0).1
    (createBounty cfg0 sActive (.user 1) (.user 5) [1, 2, 3] 4 20 (some 0)).1 rfl

/-- One upward step along the parent chain:
`parent_bounty_id.and_then(|id| bounties(id).and_then(|b| b.parent))`. -/
def parentLink (s : State) (op : Option Nat) : Option Nat :=
  op.bind (fun id => (assocGet s.bounties id).bind Bounty.parent)

/-- Concrete fixture: the bounty forest of the sub-bounty test — a root `0`
with child `1` and grandchild `2`, all active, under depth limit 2. -/
def sChain : State :=
  { genesis cfg0 with
      bountyCount := 3
      bounties :=
        [(0, ⟨.user 0, .user 1, 30, 6, 85, .active 22, none⟩),
         (1, ⟨.user 1, .user 5, 14, 3, 0, .active 23, some 0⟩),
         (2, ⟨.user 5, .user 6, 6, 1, 0, .active 23, some 1⟩)]
      bountyValueMinimum := 1
      free := [(.treasury, 26), (.bountyAcc 0, 30), (.bountyAcc 1, 14), (.bountyAcc 2, 6)]
      now := 3 }

/-- C7: `check_bounty_depth` succeeds exactly when iterating the parent link
reaches a root (no parent) within the depth budget, i.e. the walk fails
exactly when the chain is longer than `MaximumSubBountyDepth`; with the test
limit 2, creating a sub-bounty under child `1` (chain length 2) passes while
creating one under grandchild `2` (chain length 3) fails with
`ExceedDepthLimit`. -/
theorem c7_depth_limit :
    (∀ (s : State) (d : Nat) (op : Option Nat),
      checkBountyDepth s op d = true ↔ ∃ k, k ≤ d ∧ (parentLink s)^[k] op = none)
    ∧ checkBountyDepth sChain (some 1) cfg0.maximumSubBountyDepth = true
    ∧ checkBountyDepth sChain (some 2) cfg0.maximumSubBountyDepth = false
    ∧ (∃ s', createBounty cfg0 sChain (.user 5) (.user 6) [7] 1 6 (some 1) = (s', none))
    ∧ createBounty cfg0 sChain (.user 6) (.user 6) [7] 0 5 (some 2)
        = (sChain, some .exceedDepthLimit) := by
  refine ⟨?_, by decide, by decide,
    ⟨(createBounty cfg0 sChain (.user 5) (.user 6) [7] 1 6 (some 1)).1, by decide⟩, by decide⟩
  intro s d
  induction d with
  | zero =>
    intro op
    cases op with
    | none =>
      simp only [checkBountyDepth, true_iff]
      exact ⟨0, le_refl 0, rfl⟩
    | some id =>
      simp only [checkBountyDepth]
      constructor
      · intro h
        exact absurd h (by simp)
      · rintro ⟨k, hk, hit⟩
        obtain rfl : k = 0 := Nat.le_zero.mp hk
        simp [Function.iterate_zero] at hit
  | succ d ih =>
    intro op
    cases op with
    | none =>
      simp only [checkBountyDepth, true_iff]
      exact ⟨0, Nat.zero_le _, rfl⟩
    | some id =>
      rw [checkBountyDepth, ih]
      constructor
      · rintro ⟨k, hk, hit⟩
        refine ⟨k + 1, by omega, ?_⟩
        rw [Function.iterate_succ_apply]
        exact hit
      · rintro ⟨k, hk, hit⟩
        cases k with
        | zero => simp [Function.iterate_zero] at hit
        | succ k' =>
          rw [Function.iterate_succ_apply] at hit
          exact ⟨k', by omega, hit⟩

/-- The five authorized tippers of the test runtime. -/
def fiveTippers : List AccountId :=
  [.user 10, .user 11, .user 12, .user 13, .user 14]

/-- C4: after inserting/updating the caller's declaration and pruning
declarations of unauthorized accounts, `insert_tip_and_check_closing`
signals closing exactly when the pruned declaration count reaches the
threshold `(tippers + 1) / 2 = ⌈tippers / 2⌉` and no closing block was set
before; when it signals, the closing block becomes `now + TipCountdown`,
otherwise the closing block is unchanged; only pruned declarations count
(the stored vector is replaced by the pruned one), and with 5 authorized
tippers the threshold is 3. -/
theorem c4_threshold_closing (cfg : Config) (members : List AccountId)
    (now : Nat) (t : OpenTip) (tipper : AccountId) (v : Nat) :
    ((insertTipAndCheckClosing cfg members now t tipper v).2 = true ↔
      (tipThreshold members ≤
          (retainActiveTips members (insertTipSorted t.tips tipper v)).length
        ∧ t.closes = none))
    ∧ ((insertTipAndCheckClosing cfg members now t tipper v).2 = true →
        (insertTipAndCheckClosing cfg members now t tipper v).1.closes
          = some (now + cfg.tipCountdown))
    ∧ ((insertTipAndCheckClosing cfg members now t tipper v).2 = false →
        (insertTipAndCheckClosing cfg members now t tipper v).1.closes = t.closes)
    ∧ (insertTipAndCheckClosing cfg members now t tipper v).1.tips
        = retainActiveTips members (insertTipSorted t.tips tipper v)
    ∧ tipThreshold fiveTippers = 3 := by
  unfold insertTipAndCheckClosing
  dsimp only
  split
  · rename_i hcond
    exact ⟨by simp [hcond], fun _ => rfl, by simp, rfl, by decide⟩
  · rename_i hcond
    exact ⟨by simpa using hcond, by simp, fun _ => rfl, rfl, by decide⟩

/-- Witness for C4: in the test configuration with the 5 tippers and two
prior declarations (from `user 11` and `user 12`), the third declaration by
`user 10` reaches the threshold 3 and schedules closing at `now + 1`. -/
theorem c4_threshold_closing_witness :
    ((insertTipAndCheckClosing cfg0 fiveTippers 7
        ⟨[9], .user 3, .user 11, 0, none, [(.user 11, 10), (.user 12, 10)], false⟩
        (.user 10) 10).2 = true →
      (insertTipAndCheckClosing cfg0 fiveTippers 7
        ⟨[9], .user 3, .user 11, 0, none, [(.user 11, 10), (.user 12, 10)], false⟩
        (.user 10) 10).1.closes = some (7 + cfg0.tipCountdown))
    ∧ (insertTipAndCheckClosing cfg0 fiveTippers 7
        ⟨[9], .user 3, .user 11, 0, none, [(.user 11, 10), (.user 12, 10)], false⟩
        (.user 10) 10).2 = true :=
  ⟨(c4_threshold_closing cfg0 fiveTippers 7
      ⟨[9], .user 3, .user 11, 0, none, [(.user 11, 10), (.user 12, 10)], false⟩
      (.user 10) 10).2.1, by decide⟩

/-- The final beneficiary payout of `payout_tip` given the selected amount
`m`: clamp to the pot, then subtract the finders fee when one applies. -/
def tipFinalPayout (cfg : Config) (s : State) (t : OpenTip) (m : Nat) : Nat :=
  let p0 := min m (s.pot cfg)
  if t.findersFee ∧ t.finder ≠ t.who then p0 - percentMul cfg.tipFindersFeePercent p0
  else p0

/-- C1 (amended): every payout of `close_tip` selects the element at index
`len / 2` of the value-sorted pruned declarations (`tipMedian`) — which for
odd counts is the true median but for even counts is the UPPER of the two
middle values — and pays it clamped to the pot minus any finders fee; in
particular two declarations of 10 and 1,000,000 select 1,000,000, not 10. -/
theorem c1_payout_selects_index_len_div_two :
    (∀ (cfg : Config) (s : State) (h : TipHash) (t : OpenTip) (s' : State) (p : Nat),
      assocGet s.tipsMap h = some t →
      closeTip cfg s h = (s', .paid p) →
      ∃ m, tipMedian (retainActiveTips s.tippers t.tips) = some m
        ∧ p = tipFinalPayout cfg s t m)
    ∧ tipMedian [(.user 10, 10), (.user 11, 1000000)] = some 1000000 := by
  refine ⟨?_, by decide⟩
  intro cfg s h t s' p hl hc
  unfold closeTip at hc
  rw [hl] at hc
  dsimp only at hc
  cases hcl : t.closes with
  | none => rw [hcl] at hc; simp at hc
  | some n =>
    rw [hcl] at hc
    dsimp only at hc
    split at hc
    · simp at hc
    · unfold payoutTip at hc
      dsimp only at hc
      cases hm : (sortByValue (retainActiveTips s.tippers t.tips)).get?
          ((sortByValue (retainActiveTips s.tippers t.tips)).length / 2) with
      | none =>
        rw [hm] at hc
        simp at hc
      | some sel =>
        rw [hm] at hc
        dsimp only at hc
        refine ⟨sel.2, ?_, ?_⟩
        · unfold tipMedian
          dsimp only
          rw [hm]
          rfl
        · unfold tipFinalPayout
          split at hc
          · rename_i hcond
            rw [if_pos hcond]
            exact (CloseOut.paid.injEq _ _ ▸ (Prod.mk.injEq _ _ _ _ ▸ hc).2).symm
          · rename_i hcond
            rw [if_neg hcond]
            exact (CloseOut.paid.injEq _ _ ▸ (Prod.mk.injEq _ _ _ _ ▸ hc).2).symm

/-- Trace to the C1 scenario: three authorized tippers, a funded pot, a tip
opened by `tip_new(10)` and a second declaration of 1,000,000, then the
countdown elapses. -/
def threeTippers : List AccountId := [.user 10, .user 11, .user 12]

def c1s1 : State := { genesis cfg0 with tippers := threeTippers }

def c1s2 : State := c1s1.depositCreating .treasury 2000000

def c1s3 : State := (tipNew c1s2 (.user 10) [9] (.user 3) 10).1

def c1s4 : State := (tipCall cfg0 c1s3 (.user 11) ([9], .user 3) 1000000).1

def c1s5 : State := { c1s4 with now := 5 }

/-- The open tip stored in `c1s5`: exactly two declarations, 10 by `user 10`
and 1,000,000 by `user 11`, countdown already elapsed. -/
def tC1 : OpenTip :=
  ⟨[9], .user 3, .user 10, 0, some 1, [(.user 10, 10), (.user 11, 1000000)], false⟩

/-- C1 counterexample: in a reachable state whose open tip holds exactly the
two declarations 10 and 1,000,000, `close_tip` pays 1,000,000 (the element
at index `len / 2 = 1`, the upper of the two middle values), not 10 as the
claim states. -/
theorem c1_counterexample :
    ∃ s, Reachable cfg0 s
      ∧ assocGet s.tipsMap ([9], .user 3) = some tC1
      ∧ tC1.tips.map Prod.snd = [10, 1000000]
      ∧ (closeTip cfg0 s ([9], .user 3)).2 = .paid 1000000
      ∧ (closeTip cfg0 s ([9], .user 3)).2 ≠ .paid 10 := by
  refine ⟨c1s5, ?_, by decide, by decide, by decide, by decide⟩
  unfold Reachable
  have h1 : Step cfg0 (genesis cfg0) c1s1 :=
    Step.setTippers (genesis cfg0) threeTippers
      (by simp [sortedMembers, threeTippers, List.chain'_cons, AccountId.enc])
  have h2 : Step cfg0 c1s1 c1s2 := Step.fund c1s1 .treasury 2000000
  have h3 : Step cfg0 c1s2 c1s3 :=
    Step.tipNew c1s2 (.user 10) [9] (.user 3) 10 c1s3 (by decide)
  have h4 : Step cfg0 c1s3 c1s4 :=
    Step.tipCall c1s3 (.user 11) ([9], .user 3) 1000000 c1s4 (by decide)
  have h5 : Step cfg0 c1s4 c1s5 := Step.setNow c1s4 5 (by decide)
  exact Relation.ReflTransGen.tail (Relation.ReflTransGen.tail
    (Relation.ReflTransGen.tail (Relation.ReflTransGen.tail
      (Relation.ReflTransGen.tail Relation.ReflTransGen.refl h1) h2) h3) h4) h5

/-- Witness for the amended C1 theorem at the concrete state `c1s5`: the
paid 1,000,000 equals the selected `tipMedian` under `tipFinalPayout`. -/
theorem c1_payout_selects_index_len_div_two_witness :
    ∃ m, tipMedian (retainActiveTips c1s5.tippers tC1.tips) = some m
      ∧ 1000000 = tipFinalPayout cfg0 c1s5 tC1 m :=
  c1_payout_selects_index_len_div_two.1 cfg0 c1s5 ([9], .user 3) tC1
    (closeTip cfg0 c1s5 ([9], .user 3)).1 1000000 (by decide) (by decide)

theorem insertByValue_length (p : AccountId × Nat) (l : List (AccountId × Nat)) :
    (insertByValue p l).length = l.length + 1 := by
  induction l with
  | nil => rfl
  | cons q rest ih =>
    unfold insertByValue
    split
    · rfl
    · simpa [List.length_cons] using ih

theorem sortByValue_length (l : List (AccountId × Nat)) :
    (sortByValue l).length = l.length := by
  induction l with
  | nil => rfl
  | cons p rest ih =>
    unfold sortByValue
    rw [insertByValue_length, ih, List.length_cons]

/-- Trace to the C9 scenario: a single authorized tipper opens a tip and
redeclares (closing fires at threshold `(1 + 1) / 2 = 1`); the countdown
elapses and the tipper is then removed from the authorized set, leaving a
closable tip whose declarations all fail the pruning. -/
def c9s1 : State := { genesis cfg0 with tippers := [.user 10] }

def c9s2 : State := (tipNew c9s1 (.user 10) [9] (.user 3) 5).1

def c9s3 : State := (tipCall cfg0 c9s2 (.user 10) ([9], .user 3) 5).1

def c9s4 : State := { c9s3 with now := 1 }

def c9s5 : State := { c9s4 with tippers := [] }

/-- C9: there is a reachable state in which `close_tip` passes all its
checks but every declaration of the stored tip is pruned, so `payout_tip`
reaches `tips[tips.len() / 2]` on an empty vector and diverges: the payout
computation is partial, and it is total exactly on tips with at least one
surviving declaration (`tipMedian` is `some` on every nonempty vector). -/
theorem c9_close_tip_panics_on_all_pruned :
    (∃ s, Reachable cfg0 s
      ∧ ∃ t, assocGet s.tipsMap ([9], .user 3) = some t
        ∧ retainActiveTips s.tippers t.tips = []
        ∧ (closeTip cfg0 s ([9], .user 3)).2 = .panicked)
    ∧ (∀ tips : List (AccountId × Nat), tips ≠ [] → (tipMedian tips).isSome = true) := by
  constructor
  · refine ⟨c9s5, ?_, ⟨[9], .user 3, .user 10, 0, some 1, [(.user 10, 5)], false⟩,
      by decide, by decide, by decide⟩
    unfold Reachable
    have h1 : Step cfg0 (genesis cfg0) c9s1 :=
      Step.setTippers (genesis cfg0) [.user 10]
        (by simp [sortedMembers, List.chain'_cons])
    have h2 : Step cfg0 c9s1 c9s2 :=
      Step.tipNew c9s1 (.user 10) [9] (.user 3) 5 c9s2 (by decide)
    have h3 : Step cfg0 c9s2 c9s3 :=
      Step.tipCall c9s2 (.user 10) ([9], .user 3) 5 c9s3 (by decide)
    have h4 : Step cfg0 c9s3 c9s4 := Step.setNow c9s3 1 (by decide)
    have h5 : Step cfg0 c9s4 c9s5 :=
      Step.setTippers c9s4 [] (by simp [sortedMembers])
    exact Relation.ReflTransGen.tail (Relation.ReflTransGen.tail
      (Relation.ReflTransGen.tail (Relation.ReflTransGen.tail
        (Relation.ReflTransGen.tail Relation.ReflTransGen.refl h1) h2) h3) h4) h5
  · intro tips hne
    unfold tipMedian
    dsimp only
    rw [Option.isSome_map']
    rw [Option.isSome_iff_ne_none]
    intro hnone
    rw [List.get?_eq_none] at hnone
    have hlen : (sortByValue tips).length = tips.length := sortByValue_length tips
    have hpos : 0 < tips.length := List.length_pos.mpr hne
    omega

theorem drainProposals_missed (q : List Nat) (s : State) (b : Nat) (m : Bool) :
    (drainProposals q s b m).missed
      = (m || !(drainProposals q s b m).skipped.isEmpty) := by
  induction q generalizing s b m with
  | nil => simp [drainProposals]
  | cons i rest ih =>
    cases hp : assocGet s.proposals i with
    | none =>
      simp only [drainProposals, hp]
      exact ih _ _ _
    | some p =>
      by_cases hv : p.value ≤ b
      · simp only [drainProposals, hp, if_pos hv]
        exact ih _ _ _
      · simp only [drainProposals, hp, if_neg hv]
        rw [ih]
        simp

theorem drainBounties_missed (cfg : Config) (q : List Nat) (s : State) (b : Nat)
    (m : Bool) :
    (drainBounties cfg q s b m).missed
      = (m || !(drainBounties cfg q s b m).skipped.isEmpty) := by
  induction q generalizing s b m with
  | nil => simp [drainBounties]
  | cons i rest ih =>
    cases hp : assocGet s.bounties i with
    | none =>
      simp only [drainBounties, hp]
      exact ih _ _ _
    | some bo =>
      by_cases hv : bo.value ≤ b
      · simp only [drainBounties, hp, if_pos hv]
        exact ih _ _ _
      · simp only [drainBounties, hp, if_neg hv]
        rw [ih]
        simp

/-- C3: in every settlement run the burn is
`min(Burn * budget_after_drain, budget_after_drain)` exactly when no queued
proposal or bounty was skipped for insufficient budget in the cycle, and no
burn happens exactly when something was skipped. -/
theorem c3_burn_iff_nothing_skipped (cfg : Config) (s : State) :
    ((spendFunds cfg s).2.burn
        = some (min (permillMul cfg.burnPermill (spendFunds cfg s).2.budgetAfterDrain)
            (spendFunds cfg s).2.budgetAfterDrain)
      ↔ ((spendFunds cfg s).2.skippedProposals = []
          ∧ (spendFunds cfg s).2.skippedBounties = []))
    ∧ ((spendFunds cfg s).2.burn = none
      ↔ ((spendFunds cfg s).2.skippedProposals ≠ []
          ∨ (spendFunds cfg s).2.skippedBounties ≠ [])) := by
  unfold spendFunds
  dsimp only
  rw [drainBounties_missed, drainProposals_missed]
  simp only [Bool.false_or]
  cases hp : (drainProposals s.approvals s (s.pot cfg) false).skipped.isEmpty <;>
    cases hb : (drainBounties cfg
        { (drainProposals s.approvals s (s.pot cfg) false).st with
            approvals := (drainProposals s.approvals s (s.pot cfg) false).kept }.bountyApprovals
        { (drainProposals s.approvals s (s.pot cfg) false).st with
            approvals := (drainProposals s.approvals s (s.pot cfg) false).kept }
        (drainProposals s.approvals s (s.pot cfg) false).budget
        (drainProposals s.approvals s (s.pot cfg) false).missed).skipped.isEmpty
  all_goals
    simp_all [List.isEmpty_iff, List.isEmpty_eq_false_iff_exists_mem]

theorem proposeSpend_err_unchanged (cfg : Config) (s : State) (a : AccountId)
    (v : Nat) (ben : AccountId) (s' : State) (e : Err)
    (h : proposeSpend cfg s a v ben = (s', some e)) : s' = s := by
  unfold proposeSpend at h
  dsimp only at h
  repeat' split at h
  all_goals simp only [Prod.mk.injEq] at h
  all_goals first | exact h.1.symm | simp at h

theorem rejectProposal_err_unchanged (s : State) (id : Nat) (s' : State) (e : Err)
    (h : rejectProposal s id = (s', some e)) : s' = s := by
  unfold rejectProposal at h
  dsimp only at h
  repeat' split at h
  all_goals simp only [Prod.mk.injEq] at h
  all_goals first | exact h.1.symm | simp at h

theorem approveProposal_err_unchanged (s : State) (id : Nat) (s' : State) (e : Err)
    (h : approveProposal s id = (s', some e)) : s' = s := by
  unfold approveProposal at h
  try dsimp only at h
  repeat' split at h
  all_goals simp only [Prod.mk.injEq] at h
  all_goals first | exact h.1.symm | simp at h

theorem reportAwesome_err_unchanged (cfg : Config) (s : State) (finder : AccountId)
    (reason : List Nat) (who : AccountId) (s' : State) (e : Err)
    (h : reportAwesome cfg s finder reason who = (s', some e)) : s' = s := by
  unfold reportAwesome at h
  dsimp only at h
  repeat' split at h
  all_goals simp only [Prod.mk.injEq] at h
  all_goals first | exact h.1.symm | simp at h

theorem retractTip_err_unchanged (s : State) (who : AccountId) (hs : TipHash)
    (s' : State) (e : Err) (h : retractTip s who hs = (s', some e)) : s' = s := by
  unfold retractTip at h
  dsimp only at h
  repeat' split at h
  all_goals simp only [Prod.mk.injEq] at h
  all_goals first | exact h.1.symm | simp at h

theorem tipNew_err_unchanged (s : State) (tipper : AccountId) (reason : List Nat)
    (who : AccountId) (v : Nat) (s' : State) (e : Err)
    (h : tipNew s tipper reason who v = (s', some e)) : s' = s := by
  unfold tipNew at h
  dsimp only at h
  repeat' split at h
  all_goals simp only [Prod.mk.injEq] at h
  all_goals first | exact h.1.symm | simp at h

theorem tipCall_err_unchanged (cfg : Config) (s : State) (tipper : AccountId)
    (hs : TipHash) (v : Nat) (s' : State) (e : Err)
    (h : tipCall cfg s tipper hs v = (s', some e)) : s' = s := by
  unfold tipCall at h
  dsimp only at h
  repeat' split at h
  all_goals simp only [Prod.mk.injEq] at h
  all_goals first | exact h.1.symm | simp at h

theorem closeTip_err_unchanged (cfg : Config) (s : State) (hs : TipHash)
    (s' : State) (e : Err) (h : closeTip cfg s hs = (s', .err e)) : s' = s := by
  unfold closeTip payoutTip at h
  dsimp only at h
  repeat' split at h
  all_goals simp only [Prod.mk.injEq] at h
  all_goals first | exact h.1.symm | simp at h

theorem createBounty_err_unchanged (cfg : Config) (s : State)
    (proposer curator : AccountId) (description : List Nat) (fee value : Nat)
    (parentId : Option Nat) (s' : State) (e : Err)
    (h : createBounty cfg s proposer curator description fee value parentId
      = (s', some e)) : s' = s := by
  unfold createBounty at h
  dsimp only at h
  repeat' split at h
  all_goals simp only [Prod.mk.injEq] at h
  all_goals first | exact h.1.symm | simp at h

theorem rejectBounty_err_unchanged (s : State) (id : Nat) (s' : State) (e : Err)
    (h : rejectBounty s id = (s', some e)) : s' = s := by
  unfold rejectBounty at h
  dsimp only at h
  repeat' split at h
  all_goals simp only [Prod.mk.injEq] at h
  all_goals first | exact h.1.symm | simp at h

theorem approveBounty_err_unchanged (s : State) (id : Nat) (s' : State) (e : Err)
    (h : approveBounty s id = (s', some e)) : s' = s := by
  unfold approveBounty at h
  try dsimp only at h
  repeat' split at h
  all_goals simp only [Prod.mk.injEq] at h
  all_goals first | exact h.1.symm | simp at h

theorem awardBounty_err_unchanged (cfg : Config) (s : State) (caller : AccountId)
    (id : Nat) (ben : AccountId) (s' : State) (e : Err)
    (h : awardBounty cfg s caller id ben = (s', some e)) : s' = s := by
  unfold awardBounty at h
  dsimp only at h
  repeat' split at h
  all_goals simp only [Prod.mk.injEq] at h
  all_goals first | exact h.1.symm | simp at h

theorem claimBounty_err_unchanged (cfg : Config) (s : State) (id : Nat)
    (s' : State) (e : Err) (h : claimBounty cfg s id = (s', some e)) : s' = s := by
  unfold claimBounty at h
  dsimp only at h
  repeat' split at h
  all_goals simp only [Prod.mk.injEq] at h
  all_goals first | exact h.1.symm | simp at h

theorem cancelBounty_err_unchanged (cfg : Config) (s : State) (caller : AccountId)
    (id : Nat) (s' : State) (e : Err)
    (h : cancelBounty cfg s caller id = (s', some e)) : s' = s := by
  unfold cancelBounty at h
  dsimp only at h
  repeat' split at h
  all_goals simp only [Prod.mk.injEq] at h
  all_goals first | exact h.1.symm | simp at h

theorem extendBountyExpiry_err_unchanged (cfg : Config) (s : State)
    (caller : AccountId) (id : Nat) (s' : State) (e : Err)
    (h : extendBountyExpiry cfg s caller id = (s', some e)) : s' = s := by
  unfold extendBountyExpiry at h
  dsimp only at h
  repeat' split at h
  all_goals simp only [Prod.mk.injEq] at h
  all_goals first | exact h.1.symm | simp at h

/-- C6: every dispatchable that returns a validation error leaves the state
exactly as it was — all checks run before the first write, and the
`try_mutate_exists` blocks of the bounty calls roll their entry back on
error — including the multi-step sub-bounty creation touching parent and
child. -/
theorem c6_errors_are_atomic (cfg : Config) (s : State) :
    (∀ a v ben s' e, proposeSpend cfg s a v ben = (s', some e) → s' = s)
    ∧ (∀ id s' e, rejectProposal s id = (s', some e) → s' = s)
    ∧ (∀ id s' e, approveProposal s id = (s', some e) → s' = s)
    ∧ (∀ finder reason who s' e, reportAwesome cfg s finder reason who = (s', some e) → s' = s)
    ∧ (∀ who hs s' e, retractTip s who hs = (s', some e) → s' = s)
    ∧ (∀ tipper reason who v s' e, tipNew s tipper reason who v = (s', some e) → s' = s)
    ∧ (∀ tipper hs v s' e, tipCall cfg s tipper hs v = (s', some e) → s' = s)
    ∧ (∀ hs s' e, closeTip cfg s hs = (s', .err e) → s' = s)
    ∧ (∀ proposer curator description fee value parentId s' e,
        createBounty cfg s proposer curator description fee value parentId = (s', some e) → s' = s)
    ∧ (∀ id s' e, rejectBounty s id = (s', some e) → s' = s)
    ∧ (∀ id s' e, approveBounty s id = (s', some e) → s' = s)
    ∧ (∀ caller id ben s' e, awardBounty cfg s caller id ben = (s', some e) → s' = s)
    ∧ (∀ id s' e, claimBounty cfg s id = (s', some e) → s' = s)
    ∧ (∀ caller id s' e, cancelBounty cfg s caller id = (s', some e) → s' = s)
    ∧ (∀ caller id s' e, extendBountyExpiry cfg s caller id = (s', some e) → s' = s) :=
  ⟨fun a v ben s' e h => proposeSpend_err_unchanged cfg s a v ben s' e h,
   fun id s' e h => rejectProposal_err_unchanged s id s' e h,
   fun id s' e h => approveProposal_err_unchanged s id s' e h,
   fun finder reason who s' e h => reportAwesome_err_unchanged cfg s finder reason who s' e h,
   fun who hs s' e h => retractTip_err_unchanged s who hs s' e h,
   fun tipper reason who v s' e h => tipNew_err_unchanged s tipper reason who v s' e h,
   fun tipper hs v s' e h => tipCall_err_unchanged cfg s tipper hs v s' e h,
   fun hs s' e h => closeTip_err_unchanged cfg s hs s' e h,
   fun proposer curator description fee value parentId s' e h =>
     createBounty_err_unchanged cfg s proposer curator description fee value parentId s' e h,
   fun id s' e h => rejectBounty_err_unchanged s id s' e h,
   fun id s' e h => approveBounty_err_unchanged s id s' e h,
   fun caller id ben s' e h => awardBounty_err_unchanged cfg s caller id ben s' e h,
   fun id s' e h => claimBounty_err_unchanged cfg s id s' e h,
   fun caller id s' e h => cancelBounty_err_unchanged cfg s caller id s' e h,
   fun caller id s' e h => extendBountyExpiry_err_unchanged cfg s caller id s' e h⟩

/-- Witness for C6: at `sActive`, `create_sub_bounty` with fee 10 (not below
the parent's 6) fails with `InvalidFee` and the resulting state is exactly
`sActive` again. -/
theorem c6_errors_are_atomic_witness :
    (createBounty cfg0 sActive (.user 1) (.user 5) [1, 2, 3] 10 20 (some 0)).1 = sActive :=
  (c6_errors_are_atomic cfg0 sActive).2.2.2.2.2.2.2.2.1 (.user 1) (.user 5) [1, 2, 3]
    10 20 (some 0)
    (createBounty cfg0 sActive (.user 1) (.user 5) [1, 2, 3] 10 20 (some 0)).1
    .invalidFee (by decide)

theorem drainProposals_st_bountyApprovals (q : List Nat) (s : State) (b : Nat)
    (m : Bool) : (drainProposals q s b m).st.bountyApprovals = s.bountyApprovals := by
  induction q generalizing s b m with
  | nil => rfl
  | cons i rest ih =>
    cases hp : assocGet s.proposals i with
    | none =>
      simp only [drainProposals, hp]
      exact ih _ _ _
    | some p =>
      by_cases hv : p.value ≤ b
      · simp only [drainProposals, hp, if_pos hv]
        rw [ih]
        rfl
      · simp only [drainProposals, hp, if_neg hv]
        exact ih _ _ _

theorem drainBounties_st_proposals (cfg : Config) (q : List Nat) (s : State)
    (b : Nat) (m : Bool) : (drainBounties cfg q s b m).st.proposals = s.proposals := by
  induction q generalizing s b m with
  | nil => rfl
  | cons i rest ih =>
    cases hp : assocGet s.bounties i with
    | none =>
      simp only [drainBounties, hp]
      exact ih _ _ _
    | some bo =>
      by_cases hv : bo.value ≤ b
      · simp only [drainBounties, hp, if_pos hv]
        rw [ih]
        rfl
      · simp only [drainBounties, hp, if_neg hv]
        exact ih _ _ _

theorem drainProposals_none_mono (q : List Nat) (s : State) (b : Nat) (m : Bool)
    (i : Nat) (h : assocGet s.proposals i = none) :
    assocGet (drainProposals q s b m).st.proposals i = none := by
  induction q generalizing s b m with
  | nil => exact h
  | cons j rest ih =>
    cases hp : assocGet s.proposals j with
    | none =>
      simp only [drainProposals, hp]
      exact ih _ _ _ h
    | some p =>
      by_cases hv : p.value ≤ b
      · simp only [drainProposals, hp, if_pos hv]
        refine ih _ _ _ ?_
        show assocGet (assocRemove s.proposals j) i = none
        by_cases hij : j = i
        · subst hij; exact assocGet_remove_eq _ _
        · rw [assocGet_remove_ne _ _ _ hij]; exact h
      · simp only [drainProposals, hp, if_neg hv]
        exact ih _ _ _ h

theorem drainProposals_paid_removed (q : List Nat) (s : State) (b : Nat) (m : Bool)
    (i : Nat) (h : i ∈ (drainProposals q s b m).paid) :
    assocGet (drainProposals q s b m).st.proposals i = none := by
  induction q generalizing s b m with
  | nil => simp [drainProposals] at h
  | cons j rest ih =>
    cases hp : assocGet s.proposals j with
    | none =>
      simp only [drainProposals, hp] at h ⊢
      exact ih _ _ _ h
    | some p =>
      by_cases hv : p.value ≤ b
      · simp only [drainProposals, hp, if_pos hv] at h ⊢
        rcases List.mem_cons.mp h with hij | hmem
        · subst hij
          refine drainProposals_none_mono _ _ _ _ _ ?_
          show assocGet (assocRemove s.proposals i) i = none
          exact assocGet_remove_eq _ _
        · exact ih _ _ _ hmem
      · simp only [drainProposals, hp, if_neg hv] at h ⊢
        exact ih _ _ _ h

theorem drainProposals_paid_present (q : List Nat) (s : State) (b : Nat) (m : Bool)
    (i : Nat) (h : i ∈ (drainProposals q s b m).paid) :
    (assocGet s.proposals i).isSome = true := by
  induction q generalizing s b m with
  | nil => simp [drainProposals] at h
  | cons j rest ih =>
    cases hp : assocGet s.proposals j with
    | none =>
      simp only [drainProposals, hp] at h
      exact ih _ _ _ h
    | some p =>
      by_cases hv : p.value ≤ b
      · simp only [drainProposals, hp, if_pos hv] at h
        rcases List.mem_cons.mp h with hij | hmem
        · subst hij
          simp [hp]
        · have := ih _ _ _ hmem
          by_cases hij : j = i
          · subst hij; simp [hp]
          · show (assocGet s.proposals i).isSome = true
            have hrw : assocGet (assocRemove s.proposals j) i = assocGet s.proposals i :=
              assocGet_remove_ne _ _ _ hij
            rw [show ((({ s with proposals := assocRemove s.proposals j } : State).unreserve
                p.proposer p.bond).depositCreating p.beneficiary p.value).proposals
              = assocRemove s.proposals j from rfl, hrw] at this
            exact this
      · simp only [drainProposals, hp, if_neg hv] at h
        exact ih _ _ _ h

theorem drainBounties_paid_sub_queue (cfg : Config) (q : List Nat) (s : State)
    (b : Nat) (m : Bool) (i : Nat) (h : i ∈ (drainBounties cfg q s b m).paid) :
    i ∈ q := by
  induction q generalizing s b m with
  | nil => simp [drainBounties] at h
  | cons j rest ih =>
    cases hp : assocGet s.bounties j with
    | none =>
      simp only [drainBounties, hp] at h
      exact List.mem_cons_of_mem _ (ih _ _ _ h)
    | some bo =>
      by_cases hv : bo.value ≤ b
      · simp only [drainBounties, hp, if_pos hv] at h
        rcases List.mem_cons.mp h with hij | hmem
        · simp [hij]
        · exact List.mem_cons_of_mem _ (ih _ _ _ hmem)
      · simp only [drainBounties, hp, if_neg hv] at h
        exact List.mem_cons_of_mem _ (ih _ _ _ h)

theorem drainBounties_kept_sub_queue (cfg : Config) (q : List Nat) (s : State)
    (b : Nat) (m : Bool) (i : Nat) (h : i ∈ (drainBounties cfg q s b m).kept) :
    i ∈ q := by
  induction q generalizing s b m with
  | nil => simp [drainBounties] at h
  | cons j rest ih =>
    cases hp : assocGet s.bounties j with
    | none =>
      simp only [drainBounties, hp] at h
      exact List.mem_cons_of_mem _ (ih _ _ _ h)
    | some bo =>
      by_cases hv : bo.value ≤ b
      · simp only [drainBounties, hp, if_pos hv] at h
        exact List.mem_cons_of_mem _ (ih _ _ _ h)
      · simp only [drainBounties, hp, if_neg hv] at h
        rcases List.mem_cons.mp h with hij | hmem
        · simp [hij]
        · exact List.mem_cons_of_mem _ (ih _ _ _ hmem)

theorem drainBounties_paid_not_kept (cfg : Config) (q : List Nat) (s : State)
    (b : Nat) (m : Bool) (hnd : q.Nodup) (i : Nat)
    (h : i ∈ (drainBounties cfg q s b m).paid) :
    i ∉ (drainBounties cfg q s b m).kept := by
  induction q generalizing s b m with
  | nil => simp [drainBounties] at h
  | cons j rest ih =>
    have hnd' : rest.Nodup := (List.nodup_cons.mp hnd).2
    have hjrest : j ∉ rest := (List.nodup_cons.mp hnd).1
    cases hp : assocGet s.bounties j with
    | none =>
      simp only [drainBounties, hp] at h ⊢
      exact ih _ _ _ hnd' h
    | some bo =>
      by_cases hv : bo.value ≤ b
      · simp only [drainBounties, hp, if_pos hv] at h ⊢
        rcases List.mem_cons.mp h with hij | hmem
        · subst hij
          intro hk
          exact hjrest (drainBounties_kept_sub_queue _ _ _ _ _ _ hk)
        · exact ih _ _ _ hnd' hmem
      · simp only [drainBounties, hp, if_neg hv] at h ⊢
        intro hk
        rcases List.mem_cons.mp hk with hij | hmem
        · subst hij
          exact hjrest (drainBounties_paid_sub_queue _ _ _ _ _ _ h)
        · exact ih _ _ _ hnd' h hmem

/-- The three `let` stages of `spend_funds`, restated as standalone
definitions for reasoning: the proposal drain, the state between the
drains, and the bounty drain. -/
def sfP (cfg : Config) (s : State) : DrainRes :=
  drainProposals s.approvals s (s.pot cfg) false

def sfS1 (cfg : Config) (s : State) : State :=
  { (sfP cfg s).st with approvals := (sfP cfg s).kept }

def sfB (cfg : Config) (s : State) : DrainRes :=
  drainBounties cfg (sfS1 cfg s).bountyApprovals (sfS1 cfg s) (sfP cfg s).budget
    (sfP cfg s).missed

/-- C8: running `spend_funds` twice with no intervening change never pays a
proposal or funds a bounty twice — paid proposals are removed from the
proposal map and funded bounty queue entries are dropped on the first run
(the bounty queue holds no duplicates, which `approve_bounty` guarantees by
only enqueuing a bounty in status `Proposed`). -/
theorem c8_settlement_idempotent (cfg : Config) (s : State)
    (hnd : s.bountyApprovals.Nodup) (i : Nat) :
    (i ∈ (spendFunds cfg s).2.paidProposals →
      i ∉ (spendFunds cfg (spendFunds cfg s).1).2.paidProposals)
    ∧ (i ∈ (spendFunds cfg s).2.fundedBounties →
      i ∉ (spendFunds cfg (spendFunds cfg s).1).2.fundedBounties) := by
  constructor
  · intro h1 h2
    have h1' : i ∈ (sfP cfg s).paid := h1
    have h2' : i ∈ (sfP cfg ((spendFunds cfg s).1)).paid := h2
    have hrm := drainProposals_paid_removed _ _ _ _ _ h1'
    have hpres := drainProposals_paid_present _ _ _ _ _ h2'
    have hA : ((spendFunds cfg s).1).proposals = (sfP cfg s).st.proposals := by
      show (settleTreasury cfg _ _).proposals = _
      rw [State.settleTreasury_proposals]
      exact drainBounties_st_proposals _ _ _ _ _
    rw [show ((spendFunds cfg s).1).proposals
        = (sfP cfg s).st.proposals from hA] at hpres
    rw [show assocGet ((sfP cfg s).st).proposals i = none from hrm] at hpres
    simp at hpres
  · intro h1 h2
    have h1' : i ∈ (sfB cfg s).paid := h1
    have hndq : (sfS1 cfg s).bountyApprovals.Nodup := by
      show (sfP cfg s).st.bountyApprovals.Nodup
      rw [show (sfP cfg s).st.bountyApprovals = s.bountyApprovals from
        drainProposals_st_bountyApprovals _ _ _ _]
      exact hnd
    have hnk := drainBounties_paid_not_kept cfg (sfS1 cfg s).bountyApprovals
      (sfS1 cfg s) (sfP cfg s).budget (sfP cfg s).missed hndq i h1'
    have h2' : i ∈ (sfB cfg ((spendFunds cfg s).1)).paid := h2
    have hsub := drainBounties_paid_sub_queue cfg _ _ _ _ i h2'
    have hq2 : (sfS1 cfg ((spendFunds cfg s).1)).bountyApprovals = (sfB cfg s).kept := by
      show (sfP cfg ((spendFunds cfg s).1)).st.bountyApprovals = _
      rw [show (sfP cfg ((spendFunds cfg s).1)).st.bountyApprovals
          = ((spendFunds cfg s).1).bountyApprovals from
        drainProposals_st_bountyApprovals _ _ _ _]
      show (settleTreasury cfg _ _).bountyApprovals = _
      rw [State.settleTreasury_bountyApprovals]
      rfl
    rw [hq2] at hsub
    exact hnk hsub

/-- Concrete settlement fixture: pot 100, one approved proposal (value 50)
and one approved bounty (value 20), both affordable. -/
def sSettle : State :=
  { genesis cfg0 with
      proposalCount := 1
      proposals := [(0, ⟨.user 0, 50, .user 3, 3⟩)]
      approvals := [0]
      bountyCount := 1
      bounties := [(0, ⟨.user 0, .user 1, 20, 3, 85, .approved, none⟩)]
      bountyApprovals := [0]
      free := [(.treasury, 101), (.user 0, 15)]
      reserved := [(.user 0, 88)] }

/-- Witness for C8: at `sSettle` the first run pays proposal 0 and funds
bounty 0; the second run repeats neither. -/
theorem c8_settlement_idempotent_witness :
    0 ∈ (spendFunds cfg0 sSettle).2.paidProposals
    ∧ 0 ∉ (spendFunds cfg0 (spendFunds cfg0 sSettle).1).2.paidProposals
    ∧ 0 ∈ (spendFunds cfg0 sSettle).2.fundedBounties
    ∧ 0 ∉ (spendFunds cfg0 (spendFunds cfg0 sSettle).1).2.fundedBounties :=
  ⟨by decide,
   (c8_settlement_idempotent cfg0 sSettle (by decide) 0).1 (by decide),
   by decide,
   (c8_settlement_idempotent cfg0 sSettle (by decide) 0).2 (by decide)⟩

/-- The sortedness predicate of the `tips` vector: strictly increasing
account identities. -/
def tipsSorted (tips : List (AccountId × Nat)) : Prop :=
  List.Pairwise (fun p q : AccountId × Nat => p.1.enc < q.1.enc) tips

theorem retainLoop_sublist (ms : List AccountId) (tips : List (AccountId × Nat)) :
    List.Sublist (retainLoop ms tips) tips := by
  induction tips generalizing ms with
  | nil => simp [retainLoop]
  | cons p rest ih =>
    obtain ⟨a, w⟩ := p
    unfold retainLoop
    cases hdw : ms.dropWhile (fun m => decide (m.enc < a.enc)) with
    | nil => exact List.nil_sublist _
    | cons m ms' =>
      dsimp only
      by_cases hm : m = a
      · rw [if_pos hm]
        exact (ih ms').cons₂ _
      · rw [if_neg hm]
        exact (ih (m :: ms')).cons _

theorem tipsSorted_of_sublist {l l' : List (AccountId × Nat)} (h : List.Sublist l' l)
    (hs : tipsSorted l) : tipsSorted l' := List.Pairwise.sublist h hs

theorem insertTipSorted_mem (tips : List (AccountId × Nat)) (tipper : AccountId)
    (v : Nat) (p : AccountId × Nat) (h : p ∈ insertTipSorted tips tipper v) :
    p = (tipper, v) ∨ p ∈ tips := by
  induction tips with
  | nil => simpa [insertTipSorted] using h
  | cons q rest ih =>
    obtain ⟨a, w⟩ := q
    unfold insertTipSorted at h
    split at h
    · rcases List.mem_cons.mp h with h1 | h2
      · exact Or.inl h1
      · exact Or.inr h2
    · split at h
      · rcases List.mem_cons.mp h with h1 | h2
        · exact Or.inl h1
        · exact Or.inr (List.mem_cons_of_mem _ h2)
      · rcases List.mem_cons.mp h with h1 | h2
        · exact Or.inr (h1 ▸ List.mem_cons_self _ _)
        · rcases ih h2 with h3 | h4
          · exact Or.inl h3
          · exact Or.inr (List.mem_cons_of_mem _ h4)

theorem insertTipSorted_pairwise (tips : List (AccountId × Nat)) (tipper : AccountId)
    (v : Nat) (hs : tipsSorted tips) :
    tipsSorted (insertTipSorted tips tipper v) := by
  induction tips with
  | nil => simp [insertTipSorted, tipsSorted]
  | cons q rest ih =>
    obtain ⟨a, w⟩ := q
    rw [tipsSorted, List.pairwise_cons] at hs
    obtain ⟨ha, hrest⟩ := hs
    unfold insertTipSorted
    split
    · rename_i hlt
      rw [tipsSorted, List.pairwise_cons]
      refine ⟨?_, ?_⟩
      · intro p hp
        rcases List.mem_cons.mp hp with h1 | h2
        · rw [h1]
          exact hlt
        · exact lt_trans hlt (ha p h2)
      · rw [tipsSorted, List.pairwise_cons] at *
        exact ⟨ha, hrest⟩
    · split
      · rename_i hnl heq
        rw [tipsSorted, List.pairwise_cons]
        refine ⟨?_, hrest⟩
        intro p hp
        rw [show tipper = a from heq.symm]
        exact ha p hp
      · rename_i hnl hne
        have hagt : a.enc < tipper.enc := by
          rcases Nat.lt_trichotomy a.enc tipper.enc with h1 | h2 | h3
          · exact h1
          · exact absurd (AccountId.enc_injective h2) hne
          · exact absurd h3 hnl
        rw [tipsSorted, List.pairwise_cons]
        refine ⟨?_, ih hrest⟩
        intro p hp
        rcases insertTipSorted_mem rest tipper v p hp with h1 | h2
        · rw [h1]
          exact hagt
        · exact ha p h2

theorem dropWhile_subset (p : AccountId → Bool) (ms : List AccountId)
    (x : AccountId) (h : x ∈ ms.dropWhile p) : x ∈ ms := by
  induction ms with
  | nil => simp at h
  | cons m rest ih =>
    by_cases hp : p m
    · rw [List.dropWhile_cons_of_pos hp] at h
      exact List.mem_cons_of_mem _ (ih h)
    · rw [List.dropWhile_cons_of_neg hp] at h
      exact h

/-- Every declaration surviving the pruning loop belongs to the member
list: the lazy eviction is complete. -/
theorem retainLoop_mem_members (ms : List AccountId) (tips : List (AccountId × Nat))
    (p : AccountId × Nat) (h : p ∈ retainLoop ms tips) : p.1 ∈ ms := by
  induction tips generalizing ms with
  | nil => simp [retainLoop] at h
  | cons q rest ih =>
    obtain ⟨a, w⟩ := q
    unfold retainLoop at h
    cases hdw : ms.dropWhile (fun m => decide (m.enc < a.enc)) with
    | nil => rw [hdw] at h; simp at h
    | cons m ms' =>
      rw [hdw] at h
      dsimp only at h
      by_cases hm : m = a
      · rw [if_pos hm] at h
        rcases List.mem_cons.mp h with h1 | h2
        · have : m ∈ ms.dropWhile (fun m => decide (m.enc < a.enc)) := by
            rw [hdw]; exact List.mem_cons_self _ _
          have hmem : m ∈ ms := dropWhile_subset _ _ _ this
          rw [h1]
          exact hm ▸ hmem
        · have := ih ms' h2
          have hsub : m :: ms' = ms.dropWhile (fun m => decide (m.enc < a.enc)) := hdw.symm
          refine dropWhile_subset (fun m => decide (m.enc < a.enc)) ms p.1 ?_
          rw [hdw]
          exact List.mem_cons_of_mem _ this
      · rw [if_neg hm] at h
        have := ih (m :: ms') h
        refine dropWhile_subset (fun m => decide (m.enc < a.enc)) ms p.1 ?_
        rw [hdw]
        exact this

theorem proposeSpend_tipsMap (cfg : Config) (s : State) (a : AccountId) (v : Nat)
    (ben : AccountId) (s' : State) (r : Option Err)
    (h : proposeSpend cfg s a v ben = (s', r)) : s'.tipsMap = s.tipsMap := by
  unfold proposeSpend at h
  dsimp only at h
  repeat' split at h
  all_goals cases h
  all_goals first
    | rfl
    | (rename_i s1 heq
       exact State.reserve_tipsMap _ _ _ s1 heq)

theorem rejectProposal_tipsMap (s : State) (id : Nat) (s' : State) (r : Option Err)
    (h : rejectProposal s id = (s', r)) : s'.tipsMap = s.tipsMap := by
  unfold rejectProposal at h
  dsimp only at h
  repeat' split at h
  all_goals cases h
  all_goals rfl

theorem approveProposal_tipsMap (s : State) (id : Nat) (s' : State) (r : Option Err)
    (h : approveProposal s id = (s', r)) : s'.tipsMap = s.tipsMap := by
  unfold approveProposal at h
  repeat' split at h
  all_goals cases h
  all_goals rfl

theorem createBounty_tipsMap (cfg : Config) (s : State) (pr cu : AccountId)
    (d : List Nat) (fee value : Nat) (pid : Option Nat) (s' : State) (r : Option Err)
    (h : createBounty cfg s pr cu d fee value pid = (s', r)) :
    s'.tipsMap = s.tipsMap := by
  unfold createBounty at h
  dsimp only at h
  repeat' split at h
  all_goals cases h
  all_goals first
    | rfl
    | (rename_i s1 heq
       first
        | exact State.transfer_tipsMap _ _ _ _ _ _ s1 heq
        | exact State.reserve_tipsMap _ _ _ s1 heq)

theorem rejectBounty_tipsMap (s : State) (id : Nat) (s' : State) (r : Option Err)
    (h : rejectBounty s id = (s', r)) : s'.tipsMap = s.tipsMap := by
  unfold rejectBounty at h
  dsimp only at h
  repeat' split at h
  all_goals cases h
  all_goals rfl

theorem approveBounty_tipsMap (s : State) (id : Nat) (s' : State) (r : Option Err)
    (h : approveBounty s id = (s', r)) : s'.tipsMap = s.tipsMap := by
  unfold approveBounty at h
  repeat' split at h
  all_goals cases h
  all_goals rfl

theorem awardBounty_tipsMap (cfg : Config) (s : State) (caller : AccountId)
    (id : Nat) (ben : AccountId) (s' : State) (r : Option Err)
    (h : awardBounty cfg s caller id ben = (s', r)) : s'.tipsMap = s.tipsMap := by
  unfold awardBounty at h
  dsimp only at h
  repeat' split at h
  all_goals cases h
  all_goals rfl

theorem claimBounty_tipsMap (cfg : Config) (s : State) (id : Nat) (s' : State)
    (r : Option Err) (h : claimBounty cfg s id = (s', r)) :
    s'.tipsMap = s.tipsMap := by
  unfold claimBounty at h
  dsimp only at h
  repeat' split at h
  all_goals cases h
  all_goals first | rfl | simp

theorem cancelBounty_tipsMap (cfg : Config) (s : State) (caller : AccountId)
    (id : Nat) (s' : State) (r : Option Err)
    (h : cancelBounty cfg s caller id = (s', r)) : s'.tipsMap = s.tipsMap := by
  unfold cancelBounty at h
  dsimp only at h
  repeat' split at h
  all_goals cases h
  all_goals first | rfl | simp

theorem extendBountyExpiry_tipsMap (cfg : Config) (s : State) (caller : AccountId)
    (id : Nat) (s' : State) (r : Option Err)
    (h : extendBountyExpiry cfg s caller id = (s', r)) : s'.tipsMap = s.tipsMap := by
  unfold extendBountyExpiry at h
  dsimp only at h
  repeat' split at h
  all_goals cases h
  all_goals rfl

theorem updateBountyValueMinimum_tipsMap (s : State) (v : Nat) (s' : State)
    (r : Option Err) (h : updateBountyValueMinimum s v = (s', r)) :
    s'.tipsMap = s.tipsMap := by
  unfold updateBountyValueMinimum at h
  cases h
  rfl

theorem drainProposals_st_tipsMap (q : List Nat) (s : State) (b : Nat) (m : Bool) :
    (drainProposals q s b m).st.tipsMap = s.tipsMap := by
  induction q generalizing s b m with
  | nil => rfl
  | cons i rest ih =>
    cases hp : assocGet s.proposals i with
    | none =>
      simp only [drainProposals, hp]
      exact ih _ _ _
    | some p =>
      by_cases hv : p.value ≤ b
      · simp only [drainProposals, hp, if_pos hv]
        rw [ih]
        rfl
      · simp only [drainProposals, hp, if_neg hv]
        exact ih _ _ _

theorem drainBounties_st_tipsMap (cfg : Config) (q : List Nat) (s : State)
    (b : Nat) (m : Bool) : (drainBounties cfg q s b m).st.tipsMap = s.tipsMap := by
  induction q generalizing s b m with
  | nil => rfl
  | cons i rest ih =>
    cases hp : assocGet s.bounties i with
    | none =>
      simp only [drainBounties, hp]
      exact ih _ _ _
    | some bo =>
      by_cases hv : bo.value ≤ b
      · simp only [drainBounties, hp, if_pos hv]
        rw [ih]
        rfl
      · simp only [drainBounties, hp, if_neg hv]
        exact ih _ _ _

theorem spendFunds_tipsMap (cfg : Config) (s : State) :
    (spendFunds cfg s).1.tipsMap = s.tipsMap := by
  show (settleTreasury cfg _ _).tipsMap = s.tipsMap
  rw [State.settleTreasury_tipsMap]
  show (sfB cfg s).st.tipsMap = s.tipsMap
  rw [show (sfB cfg s).st.tipsMap = (sfS1 cfg s).tipsMap from
    drainBounties_st_tipsMap _ _ _ _ _]
  show (sfP cfg s).st.tipsMap = s.tipsMap
  exact drainProposals_st_tipsMap _ _ _ _

theorem assocGet_set_cases {α β : Type} [DecidableEq α] (l : List (α × β))
    (k h : α) (v t : β) (hl : assocGet (assocSet l k v) h = some t) :
    (h = k ∧ t = v) ∨ assocGet l h = some t := by
  by_cases hk : h = k
  · subst hk
    rw [assocGet_set_eq] at hl
    exact Or.inl ⟨rfl, (Option.some.injEq _ _ ▸ hl).symm⟩
  · rw [assocGet_set_ne _ _ _ _ (fun hh => hk hh.symm)] at hl
    exact Or.inr hl

theorem assocGet_remove_cases {α β : Type} [DecidableEq α] (l : List (α × β))
    (k h : α) (t : β) (hl : assocGet (assocRemove l k) h = some t) :
    assocGet l h = some t := by
  by_cases hk : h = k
  · subst hk
    rw [assocGet_remove_eq] at hl
    cases hl
  · rw [assocGet_remove_ne _ _ _ (fun hh => hk hh.symm)] at hl
    exact hl

/-- The per-record sortedness invariant of every stored open tip. -/
def tipsInv (s : State) : Prop :=
  ∀ h t, assocGet s.tipsMap h = some t → tipsSorted t.tips

theorem reportAwesome_ok_tipsMap (cfg : Config) (s : State) (f : AccountId)
    (r : List Nat) (w : AccountId) (s' : State)
    (h : reportAwesome cfg s f r w = (s', none)) :
    ∃ dep, s'.tipsMap = assocSet s.tipsMap (r, w) ⟨r, w, f, dep, none, [], true⟩ := by
  unfold reportAwesome at h
  dsimp only at h
  split at h
  · exact absurd h (by simp)
  split at h
  · exact absurd h (by simp)
  split at h
  · exact absurd h (by simp)
  cases hres : s.reserve f (cfg.tipReportDepositBase + cfg.dataDepositPerByte * r.length) with
  | none => rw [hres] at h; simp at h
  | some s1 =>
    rw [hres] at h
    dsimp only at h
    have hs' := (Prod.mk.injEq _ _ _ _ ▸ h).1
    refine ⟨cfg.tipReportDepositBase + cfg.dataDepositPerByte * r.length, ?_⟩
    rw [← hs']
    exact congrArg (fun l => assocSet l (r, w)
      ⟨r, w, f, cfg.tipReportDepositBase + cfg.dataDepositPerByte * r.length, none, [], true⟩)
      (State.reserve_tipsMap _ _ _ _ hres)

theorem tipNew_ok_tipsMap (s : State) (tipper : AccountId) (r : List Nat)
    (w : AccountId) (v : Nat) (s' : State) (h : tipNew s tipper r w v = (s', none)) :
    s'.tipsMap = assocSet s.tipsMap (r, w) ⟨r, w, tipper, 0, none, [(tipper, v)], false⟩ := by
  unfold tipNew at h
  dsimp only at h
  split at h
  · exact absurd h (by simp)
  split at h
  · exact absurd h (by simp)
  have hs' := (Prod.mk.injEq _ _ _ _ ▸ h).1
  rw [← hs']

theorem tipCall_ok_tipsMap (cfg : Config) (s : State) (tipper : AccountId)
    (hsh : TipHash) (v : Nat) (s' : State) (h : tipCall cfg s tipper hsh v = (s', none)) :
    ∃ t0, assocGet s.tipsMap hsh = some t0
      ∧ s'.tipsMap = assocSet s.tipsMap hsh
          (insertTipAndCheckClosing cfg s.tippers s.now t0 tipper v).1 := by
  unfold tipCall at h
  split at h
  · exact absurd h (by simp)
  cases hl : assocGet s.tipsMap hsh with
  | none => rw [hl] at h; simp at h
  | some t0 =>
    rw [hl] at h
    dsimp only at h
    have hs' := (Prod.mk.injEq _ _ _ _ ▸ h).1
    exact ⟨t0, rfl, by rw [← hs']⟩

theorem retractTip_ok_tipsMap (s : State) (who : AccountId) (hsh : TipHash)
    (s' : State) (h : retractTip s who hsh = (s', none)) :
    s'.tipsMap = assocRemove s.tipsMap hsh := by
  unfold retractTip at h
  dsimp only at h
  split at h
  · simp at h
  rename_i t0 heq
  split at h
  · exact absurd h (by simp)
  try dsimp only at h
  have hs' := (Prod.mk.injEq _ _ _ _ ▸ h).1
  rw [← hs']
  split <;> rfl

theorem closeTip_paid_tipsMap (cfg : Config) (s : State) (hsh : TipHash)
    (s' : State) (amount : Nat) (h : closeTip cfg s hsh = (s', .paid amount)) :
    s'.tipsMap = assocRemove s.tipsMap hsh := by
  unfold closeTip payoutTip at h
  dsimp only at h
  repeat' split at h
  all_goals rw [Prod.ext_iff] at h
  all_goals obtain ⟨h1, h2⟩ := h
  all_goals try dsimp only at h1 h2
  all_goals first
    | (rw [← h1]; simp)
    | cases h2

/-- Every step of the system preserves per-record sortedness of the stored
tip declaration vectors. -/
theorem step_preserves_tipsInv (cfg : Config) (s s' : State) (hs : Step cfg s s')
    (hinv : tipsInv s) : tipsInv s' := by
  cases hs with
  | proposeSpend a v ben s' h =>
    intro hh t hl
    rw [proposeSpend_tipsMap cfg s a v ben s' none h] at hl
    exact hinv _ _ hl
  | rejectProposal id s' h =>
    intro hh t hl
    rw [rejectProposal_tipsMap s id s' none h] at hl
    exact hinv _ _ hl
  | approveProposal id s' h =>
    intro hh t hl
    rw [approveProposal_tipsMap s id s' none h] at hl
    exact hinv _ _ hl
  | reportAwesome finder reason who s' h =>
    intro hh t hl
    obtain ⟨dep, hmap⟩ := reportAwesome_ok_tipsMap cfg s finder reason who s' h
    rw [hmap] at hl
    rcases assocGet_set_cases _ _ _ _ _ hl with ⟨rfl, rfl⟩ | hold
    · exact List.Pairwise.nil
    · exact hinv _ _ hold
  | retractTip who hsh s' h =>
    intro hh t hl
    rw [retractTip_ok_tipsMap s who hsh s' h] at hl
    exact hinv _ _ (assocGet_remove_cases _ _ _ _ hl)
  | tipNew tipper reason who v s' h =>
    intro hh t hl
    rw [tipNew_ok_tipsMap s tipper reason who v s' h] at hl
    rcases assocGet_set_cases _ _ _ _ _ hl with ⟨rfl, rfl⟩ | hold
    · exact List.pairwise_singleton _ _
    · exact hinv _ _ hold
  | tipCall tipper hsh v s' h =>
    intro hh t hl
    obtain ⟨t0, hl0, hmap⟩ := tipCall_ok_tipsMap cfg s tipper hsh v s' h
    rw [hmap] at hl
    rcases assocGet_set_cases _ _ _ _ _ hl with ⟨rfl, rfl⟩ | hold
    · have hsorted0 : tipsSorted t0.tips := hinv _ _ hl0
      have hins := insertTipSorted_pairwise t0.tips tipper v hsorted0
      have hret := tipsSorted_of_sublist
        (retainLoop_sublist s.tippers (insertTipSorted t0.tips tipper v)) hins
      unfold insertTipAndCheckClosing
      dsimp only
      split <;> exact hret
    · exact hinv _ _ hold
  | closeTip hsh s' amount h =>
    intro hh t hl
    rw [closeTip_paid_tipsMap cfg s hsh s' amount h] at hl
    exact hinv _ _ (assocGet_remove_cases _ _ _ _ hl)
  | createBounty pr cu d fee value pid s' h =>
    intro hh t hl
    rw [createBounty_tipsMap cfg s pr cu d fee value pid s' none h] at hl
    exact hinv _ _ hl
  | rejectBounty id s' h =>
    intro hh t hl
    rw [rejectBounty_tipsMap s id s' none h] at hl
    exact hinv _ _ hl
  | approveBounty id s' h =>
    intro hh t hl
    rw [approveBounty_tipsMap s id s' none h] at hl
    exact hinv _ _ hl
  | awardBounty caller id ben s' h =>
    intro hh t hl
    rw [awardBounty_tipsMap cfg s caller id ben s' none h] at hl
    exact hinv _ _ hl
  | claimBounty id s' h =>
    intro hh t hl
    rw [claimBounty_tipsMap cfg s id s' none h] at hl
    exact hinv _ _ hl
  | cancelBounty caller id s' h =>
    intro hh t hl
    rw [cancelBounty_tipsMap cfg s caller id s' none h] at hl
    exact hinv _ _ hl
  | extendBountyExpiry caller id s' h =>
    intro hh t hl
    rw [extendBountyExpiry_tipsMap cfg s caller id s' none h] at hl
    exact hinv _ _ hl
  | updateBountyValueMinimum v s' h =>
    intro hh t hl
    rw [updateBountyValueMinimum_tipsMap s v s' none h] at hl
    exact hinv _ _ hl
  | spendFunds s' h =>
    intro hh t hl
    rw [← h, spendFunds_tipsMap cfg s] at hl
    exact hinv _ _ hl
  | setNow n h =>
    intro hh t hl
    exact hinv _ _ hl
  | setTippers ms h =>
    intro hh t hl
    exact hinv _ _ hl
  | fund a v =>
    intro hh t hl
    exact hinv _ _ hl

/-- C5 (amended): in every reachable state every stored tip-declarations
vector is strictly sorted by account identity; and a `tip` call leaves the
record it writes holding only accounts that were authorized tippers at the
time of that call. (Membership is NOT an invariant of every reachable
state: an external removal from the tipper set leaves stale declarations in
storage until the next lazy pruning — see the counterexample.) -/
theorem c5_tips_sorted_members_at_write :
    (∀ (cfg : Config) (s : State), Reachable cfg s →
      ∀ h t, assocGet s.tipsMap h = some t → tipsSorted t.tips)
    ∧ (∀ (cfg : Config) (s : State) (tipper : AccountId) (hsh : TipHash) (v : Nat)
        (s' : State), tipCall cfg s tipper hsh v = (s', none) →
      ∀ t, assocGet s'.tipsMap hsh = some t → ∀ p ∈ t.tips, p.1 ∈ s.tippers) := by
  constructor
  · intro cfg s hr
    induction hr with
    | refl => intro h t hl; simp [genesis, assocGet] at hl
    | tail hab hbc ih => exact step_preserves_tipsInv cfg _ _ hbc ih
  · intro cfg s tipper hsh v s' h t hl p hp
    obtain ⟨t0, hl0, hmap⟩ := tipCall_ok_tipsMap cfg s tipper hsh v s' h
    rw [hmap, assocGet_set_eq] at hl
    obtain rfl : (insertTipAndCheckClosing cfg s.tippers s.now t0 tipper v).1 = t :=
      Option.some.injEq _ _ ▸ hl
    have hmem : p ∈ retainActiveTips s.tippers (insertTipSorted t0.tips tipper v) := by
      revert hp
      unfold insertTipAndCheckClosing
      dsimp only
      split <;> exact fun hp => hp
    exact retainLoop_mem_members _ _ _ hmem

/-- The stale-declaration state: the single authorized tipper `user 10`
opened a tip (recording a declaration), then the tipper group changed to
`{user 11}`; the stored declaration of `user 10` survives. -/
def c5bad : State := { c9s2 with tippers := [.user 11] }

/-- C5 counterexample: a reachable state whose stored tip still holds a
declaration by an account no longer in the authorized tipper set — lazy
eviction means membership is not a state invariant. -/
theorem c5_counterexample :
    ∃ s, Reachable cfg0 s ∧ ∃ h t, assocGet s.tipsMap h = some t
      ∧ ∃ p, p ∈ t.tips ∧ p.1 ∉ s.tippers := by
  refine ⟨c5bad, ?_, ([9], .user 3),
    ⟨[9], .user 3, .user 10, 0, none, [(.user 10, 5)], false⟩, by decide,
    (.user 10, 5), by decide, by decide⟩
  unfold Reachable
  have h1 : Step cfg0 (genesis cfg0) c9s1 :=
    Step.setTippers (genesis cfg0) [.user 10]
      (by simp [sortedMembers, List.chain'_cons])
  have h2 : Step cfg0 c9s1 c9s2 :=
    Step.tipNew c9s1 (.user 10) [9] (.user 3) 5 c9s2 (by decide)
  have h3 : Step cfg0 c9s2 c5bad :=
    Step.setTippers c9s2 [.user 11] (by simp [sortedMembers, List.chain'_cons])
  exact Relation.ReflTransGen.tail (Relation.ReflTransGen.tail
    (Relation.ReflTransGen.tail Relation.ReflTransGen.refl h1) h2) h3

/-- Witness for the amended C5 theorem: the tip stored in the reachable
state `c9s2` is sorted, and the record written by the `tip` call from
`c9s2` holds only then-authorized tippers. -/
theorem c5_tips_sorted_members_at_write_witness :
    tipsSorted [(.user 10, 5)]
    ∧ (∀ p, p ∈ [((.user 10 : AccountId), (5 : Nat))] → p.1 ∈ c9s2.tippers) :=
  ⟨c5_tips_sorted_members_at_write.1 cfg0 c9s2
    (by
      unfold Reachable
      have h1 : Step cfg0 (genesis cfg0) c9s1 :=
        Step.setTippers (genesis cfg0) [.user 10]
          (by simp [sortedMembers, List.chain'_cons])
      have h2 : Step cfg0 c9s1 c9s2 :=
        Step.tipNew c9s1 (.user 10) [9] (.user 3) 5 c9s2 (by decide)
      exact Relation.ReflTransGen.tail
        (Relation.ReflTransGen.tail Relation.ReflTransGen.refl h1) h2)
    ([9], .user 3) ⟨[9], .user 3, .user 10, 0, none, [(.user 10, 5)], false⟩
    (by decide),
   c5_tips_sorted_members_at_write.2 cfg0 c9s2 (.user 10) ([9], .user 3) 5 c9s3
    (by decide) ⟨[9], .user 3, .user 10, 0, some 1, [(.user 10, 5)], false⟩
    (by decide)⟩
